import Mathlib

set_option maxRecDepth 100000
set_option maxHeartbeats 1000000

/-!
Verification of the SRI (Subresource Integrity) HTML-rewriting engine of
vite-plugin-sri4, as a shallow embedding in Lean.

The repository ships two rewriting pipelines:

* pipeline A (`src/network-utils.js`, the integrity-calculator part of that
  file, and `src/html-parser.js`): offset-based batch rewriting —
  `isUrlFromBypassDomain`, `checkResourceSupport`, `fetchResource`,
  `getBundleKey`, `calculateIntegrity`, `processMatch`,
  `hasExistingIntegrity`, `applyIntegrityChanges`, `transformHTML`;

* pipeline B (the first variant in `src/index.js`): tag-replacement
  rewriting in `writeBundle` — `computeSri`, `externalResourceIsCorsEnabled`,
  `isBypassDomain`, `hasCrossOriginAttr`, `getBundleKey` (variant B),
  per-resource updates and `content.replace(tag, newTag)`.

Machine-level primitives of the platform (the crypto digest, `fetch`, the
WHATWG `URL` hostname, wall-clock time) are modelled as explicit parameters
or small executable models; everything else is translated from the source.
-/

namespace Sri

/-! ## Basic list/string utilities (JS string operations on `List Char`) -/

/-- JS `String.prototype.includes` on character lists (empty needle ⇒ true). -/
def containsSub (hay needle : List Char) : Bool :=
  match hay with
  | [] => needle.isEmpty
  | _ :: t => needle.isPrefixOf hay || containsSub t needle

/-- JS `String.prototype.replace` with a plain (non-empty) string pattern:
replace the first occurrence of `needle` by `repl`; no occurrence leaves the
string unchanged. -/
def replaceFirst (hay needle repl : List Char) : List Char :=
  match hay with
  | [] => if needle.isEmpty then repl else []
  | h :: t =>
    if needle.isPrefixOf (h :: t) then repl ++ (h :: t).drop needle.length
    else h :: replaceFirst t needle repl

/-- JS `String.prototype.slice(a, b)` for `0 ≤ a ≤ b` (indices clamped to the
string length; `Nat` subtraction already clamps at 0). -/
def sliceJs (l : List Char) (a b : Nat) : List Char :=
  (l.take b).drop a

/-- JS `String.prototype.startsWith` (all string primitives are defined over
the character list so that every proof can evaluate them). -/
def strStartsWith (s p : String) : Bool :=
  p.data.isPrefixOf s.data

/-- JS `String.prototype.endsWith`. -/
def strEndsWith (s p : String) : Bool :=
  p.data.isSuffixOf s.data

/-- JS `String.prototype.includes`. -/
def strIncludes (s p : String) : Bool :=
  containsSub s.data p.data

/-- JS `s.substring(n)` / `s.slice(n)`. -/
def strDrop (s : String) (n : Nat) : String :=
  String.mk (s.data.drop n)

/-- Drop the last `n` characters. -/
def strDropRight (s : String) (n : Nat) : String :=
  String.mk (s.data.take (s.data.length - n))

/-- JS string length (code points; the strings here are ASCII). -/
def strLen (s : String) : Nat :=
  s.data.length

/-- JS `String.prototype.split` with a single-character separator. -/
def splitOnChar (c : Char) : List Char → List (List Char)
  | [] => [[]]
  | h :: t =>
    match splitOnChar c t with
    | [] => [[]]
    | g :: gs => if h = c then [] :: g :: gs else (h :: g) :: gs

/-- Join character lists with a separator character. -/
def joinWith (c : Char) : List (List Char) → List Char
  | [] => []
  | [g] => g
  | g :: gs => g ++ c :: joinWith c gs

/-- Splice `t` into `l` at offset `p`:
`html.slice(0, position) + insertText + html.slice(position)`. -/
def insertAt (l : List Char) (p : Nat) (t : List Char) : List Char :=
  l.take p ++ t ++ l.drop p

instance {ε α : Type} [DecidableEq ε] [DecidableEq α] :
    DecidableEq (Except ε α) := fun x y =>
  match x, y with
  | .ok a, .ok b =>
    if h : a = b then isTrue (by rw [h]) else
      isFalse (fun hc => h (Except.ok.inj hc))
  | .error a, .error b =>
    if h : a = b then isTrue (by rw [h]) else
      isFalse (fun hc => h (Except.error.inj hc))
  | .ok _, .error _ => isFalse (fun hc => Except.noConfusion hc)
  | .error _, .ok _ => isFalse (fun hc => Except.noConfusion hc)

/-! ## Stable sort by descending key

`changes.sort((a, b) => b.position - a.position)` — JS `Array.prototype.sort`
is stable (ES2019), so it is modelled by a stable insertion sort on the
numeric key, descending. -/

/-- Insert `x` into a descending-sorted list, after any element with an equal
key (stability). -/
def insDesc (key : α → Nat) (x : α) : List α → List α
  | [] => [x]
  | y :: t => if key y < key x then x :: y :: t else y :: insDesc key x t

/-- Stable sort, descending by `key`. -/
def sortByKeyDesc (key : α → Nat) (l : List α) : List α :=
  l.foldr (insDesc key) []

/-! ## Base64 (RFC 4648) encoding of byte sequences, as `digest('base64')` -/

def base64Alphabet : List Char :=
  ("ABCDEFGHIJKLMNOPQRSTUVWXYZabcdefghijklmnopqrstuvwxyz0123456789+/").toList

def b64c (n : Nat) : Char := base64Alphabet.getD n '?'

def b64idx (c : Char) : Nat :=
  (base64Alphabet.indexOf c)

/-- Base64 encoding of a byte list (values `< 256`), with `=` padding. -/
def base64Encode : List Nat → List Char
  | [] => []
  | [a] => [b64c (a / 4), b64c (a % 4 * 16), '=', '=']
  | [a, b] => [b64c (a / 4), b64c (a % 4 * 16 + b / 16), b64c (b % 16 * 4), '=']
  | a :: b :: c :: rest =>
    b64c (a / 4) :: b64c (a % 4 * 16 + b / 16) :: b64c (b % 16 * 4 + c / 64) ::
      b64c (c % 64) :: base64Encode rest

/-- Base64 decoding (on well-formed encoder output); used only to prove the
encoder injective. -/
def base64Decode : List Char → List Nat
  | c1 :: c2 :: c3 :: c4 :: rest =>
    let b1 := b64idx c1 * 4 + b64idx c2 / 16
    let b2 := b64idx c2 % 16 * 16 + b64idx c3 / 4
    let b3 := b64idx c3 % 4 * 64 + b64idx c4
    if rest.isEmpty then
      if c4 = '=' then (if c3 = '=' then [b1] else [b1, b2]) else [b1, b2, b3]
    else b1 :: b2 :: b3 :: base64Decode rest
  | _ => []

/-! ## UTF-8 (Node hashes a JS string as its UTF-8 bytes) -/

/-- UTF-8 encoding of one code point. -/
def utf8Char (c : Char) : List Nat :=
  let n := c.toNat
  if n < 0x80 then [n]
  else if n < 0x800 then [0xC0 + n / 64, 0x80 + n % 64]
  else if n < 0x10000 then
    [0xE0 + n / 4096, 0x80 + n / 64 % 64, 0x80 + n % 64]
  else
    [0xF0 + n / 262144, 0x80 + n / 4096 % 64, 0x80 + n / 64 % 64, 0x80 + n % 64]

/-- UTF-8 bytes of a string (`Buffer.from(s, 'utf-8')` / `hash.update(s)`). -/
def utf8Bytes (s : String) : List Nat :=
  (s.data.map utf8Char).flatten

/-! ## A JS-regex evaluator

Every quantifier in the plugin's regexes ranges over a single-character
class, so `*`, `+` and `?` are resolved arithmetically over the run length
of the class, in greedy or lazy preference order; alternation and sequencing
backtrack through an explicit list of partial results in JS preference
order (first result = the match JS produces). -/

/-- The character classes appearing in the plugin's regexes. -/
inductive CCls where
  | notGt         -- [^>]
  | jsWs          -- \s
  | quoteC        -- ["']
  | notQuote      -- [^"']
  | notSpGt       -- [^ >]
  | notQuoteWsGt  -- [^"'\s>]
  | alnumC        -- [a-zA-Z0-9]
  | notDot        -- [^.]
deriving DecidableEq

/-- The apostrophe character (the second JS quote character). -/
def aposChar : Char := Char.ofNat 39

/-- JS `\s` (the whitespace characters relevant here). -/
def isJsWsChar (c : Char) : Bool :=
  c = ' ' || c = '\t' || c = '\n' || c = '\r' || c = Char.ofNat 11 ||
    c = Char.ofNat 12 || c = Char.ofNat 0xa0 || c = Char.ofNat 0x2028 ||
    c = Char.ofNat 0x2029 || c = Char.ofNat 0xfeff

/-- JS `\w` (for `\b` word-boundary tests). -/
def isWordChar (c : Char) : Bool :=
  ('a' ≤ c && c ≤ 'z') || ('A' ≤ c && c ≤ 'Z') || ('0' ≤ c && c ≤ '9') || c = '_'

def isAlnumChar (c : Char) : Bool :=
  ('a' ≤ c && c ≤ 'z') || ('A' ≤ c && c ≤ 'Z') || ('0' ≤ c && c ≤ '9')

def CCls.test : CCls → Char → Bool
  | .notGt, c => c ≠ '>'
  | .jsWs, c => isJsWsChar c
  | .quoteC, c => c = '"' || c = aposChar
  | .notQuote, c => c ≠ '"' && c ≠ aposChar
  | .notSpGt, c => c ≠ ' ' && c ≠ '>'
  | .notQuoteWsGt, c => c ≠ '"' && c ≠ aposChar && !isJsWsChar c && c ≠ '>'
  | .alnumC, c => isAlnumChar c
  | .notDot, c => c ≠ '.'

/-- ASCII lowercasing, for the `/i` flag. -/
def lowerAscii (c : Char) : Char :=
  if 'A' ≤ c && c ≤ 'Z' then Char.ofNat (c.toNat + 32) else c

/-- Regex AST covering the constructs used by the plugin's patterns. -/
inductive RE where
  | eps
  | lit (cs : List Char)            -- literal text
  | litCI (cs : List Char)          -- literal text under the /i flag
  | cls (c : CCls)                  -- single-character class
  | seq (a b : RE)
  | alt (a b : RE)                  -- a|b, left-preferred
  | star (lazy : Bool) (c : CCls)   -- c* (greedy) or c*? (lazy)
  | plus (c : CCls)                 -- c+ (greedy)
  | opt (a : RE)                    -- (?:a)? (greedy)
  | grp (n : Nat) (a : RE)          -- capture group n
  | bnd                             -- \b
  | bos                             -- ^ (no m flag)
  | eos                             -- $ (no m flag)

/-- Captured groups: group number paired with captured text (most recent
first). -/
abbrev Caps := List (Nat × List Char)

def capGet (caps : Caps) (n : Nat) : Option (List Char) :=
  (caps.find? (fun p => p.1 = n)).map (·.2)

/-- A partial-match state: last consumed character (`none` at string start),
remaining input, captures so far. -/
abbrev MState := Option Char × List Char × Caps

/-- Length of the initial run of class characters. -/
def runLen (c : CCls) (s : List Char) : Nat :=
  (s.takeWhile c.test).length

/-- Last consumed character after taking `n` characters from `s`, falling
back to the previous character when `n = 0`. -/
def prevAfter (prev : Option Char) (s : List Char) (n : Nat) : Option Char :=
  match (s.take n).getLast? with
  | some ch => some ch
  | none => prev

/-- Strip a literal prefix, optionally case-insensitively. -/
def stripLit (ci : Bool) : List Char → List Char → Option (List Char)
  | [], s => some s
  | _ :: _, [] => none
  | p :: ps, c :: cs =>
    if (if ci then lowerAscii p = lowerAscii c else p = c) then
      stripLit ci ps cs
    else none

/-- Run a regex against the input, producing all partial-match states in JS
backtracking preference order (head = the state JS commits to). -/
def mrun : RE → Option Char → List Char → Caps → List MState
  | .eps, prev, s, caps => [(prev, s, caps)]
  | .lit cs, prev, s, caps =>
    match stripLit false cs s with
    | some rest => [(prevAfter prev s cs.length, rest, caps)]
    | none => []
  | .litCI cs, prev, s, caps =>
    match stripLit true cs s with
    | some rest => [(prevAfter prev s cs.length, rest, caps)]
    | none => []
  | .cls c, _, s, caps =>
    match s with
    | [] => []
    | h :: t => if c.test h then [(some h, t, caps)] else []
  | .seq a b, prev, s, caps =>
    (mrun a prev s caps).flatMap (fun st => mrun b st.1 st.2.1 st.2.2)
  | .alt a b, prev, s, caps => mrun a prev s caps ++ mrun b prev s caps
  | .star lz c, prev, s, caps =>
    let k := runLen c s
    let counts := if lz then List.range (k + 1) else (List.range (k + 1)).reverse
    counts.map (fun n => (prevAfter prev s n, s.drop n, caps))
  | .plus c, prev, s, caps =>
    let k := runLen c s
    ((List.range k).reverse.map (· + 1)).map
      (fun n => (prevAfter prev s n, s.drop n, caps))
  | .opt a, prev, s, caps => mrun a prev s caps ++ [(prev, s, caps)]
  | .grp n a, prev, s, caps =>
    (mrun a prev s caps).map
      (fun st => (st.1, st.2.1, (n, s.take (s.length - st.2.1.length)) :: st.2.2))
  | .bnd, prev, s, caps =>
    let pw := match prev with | some c => isWordChar c | none => false
    let nw := match s.head? with | some c => isWordChar c | none => false
    if pw ≠ nw then [(prev, s, caps)] else []
  | .bos, prev, s, caps =>
    match prev with
    | none => [(prev, s, caps)]
    | some _ => []
  | .eos, prev, s, caps =>
    match s with
    | [] => [(prev, s, caps)]
    | _ :: _ => []

/-- First (JS-preferred) match attempt at the current position. -/
def firstMatch (re : RE) (prev : Option Char) (s : List Char) : Option MState :=
  (mrun re prev s []).head?

/-- One regex match: start index, matched text (`match[0]`), captures. -/
structure MatchRes where
  index : Nat
  text : List Char
  caps : Caps
deriving DecidableEq

/-- Global scan (`matchAll` / an `exec` loop with the `g` flag): leftmost
match, then continue after its end.  `fuel` only bounds the number of scan
steps and is always supplied as more than the input length, which suffices
because every step consumes at least one character. -/
def scanFrom (re : RE) : Nat → Nat → Option Char → List Char → List MatchRes
  | 0, _, _, _ => []
  | _ + 1, _, _, [] => []
  | fuel + 1, i, prev, h :: t =>
    match firstMatch re prev (h :: t) with
    | some (_, rest, caps) =>
      let len := (h :: t).length - rest.length
      if len = 0 then scanFrom re fuel (i + 1) (some h) t
      else
        { index := i, text := (h :: t).take len, caps := caps } ::
          scanFrom re fuel (i + len) (prevAfter prev (h :: t) len) rest
    | none => scanFrom re fuel (i + 1) (some h) t

/-- All matches of `re` in `s`. -/
def scanAll (re : RE) (s : List Char) : List MatchRes :=
  scanFrom re (s.length + 1) 0 none s

/-- JS `regex.test(s)`: does a match exist anywhere? -/
def reTest (re : RE) (s : List Char) : Bool :=
  !(scanAll re s).isEmpty

/-- Sequence a list of regex parts. -/
def reSeq (l : List RE) : RE :=
  l.foldr RE.seq RE.eps

/-! ## The plugin's regex patterns

Pipeline A, `HTML_PATTERNS` in `html-parser.js`:

* script: `/<script\b[^>]*?\bsrc\s*=\s*["']([^"']+)["'][^>]*><\/script>/g`,
  `endOffset 10`;
* stylesheet:
  `/<link\b[^>]*?\brel\s*=\s*["']stylesheet["'][^>]*?\bhref\s*=\s*["']([^"']+)["'][^>]*>/g`,
  `endOffset 1`;
* modulepreload: the same with `modulepreload`, `endOffset 1`.

Pipeline B, `transformIndexHtml` in `index.js`:

* script: `/<script[^>]+src=(?:["']([^"']+)["']|([^ >]+))[^>]*>/g`;
* link: `/<link[^>]+href=(?:["']([^"']+)["']|([^ >]+))[^>]*>/g`;
* `hasCrossOriginAttr`:
  `/(?:^|\s)crossorigin(?:=["']?[^"'\s>]*["']?)?(?:\s|>|$)/i`. -/

def scriptPatternA : RE :=
  reSeq [.lit "<script".toList, .bnd, .star true .notGt, .bnd, .lit "src".toList,
    .star false .jsWs, .lit "=".toList, .star false .jsWs, .cls .quoteC,
    .grp 1 (.plus .notQuote), .cls .quoteC, .star false .notGt,
    .lit "></script>".toList]

def stylesheetPatternA : RE :=
  reSeq [.lit "<link".toList, .bnd, .star true .notGt, .bnd, .lit "rel".toList,
    .star false .jsWs, .lit "=".toList, .star false .jsWs, .cls .quoteC,
    .lit "stylesheet".toList, .cls .quoteC, .star true .notGt, .bnd,
    .lit "href".toList, .star false .jsWs, .lit "=".toList, .star false .jsWs,
    .cls .quoteC, .grp 1 (.plus .notQuote), .cls .quoteC, .star false .notGt,
    .lit ">".toList]

def modulepreloadPatternA : RE :=
  reSeq [.lit "<link".toList, .bnd, .star true .notGt, .bnd, .lit "rel".toList,
    .star false .jsWs, .lit "=".toList, .star false .jsWs, .cls .quoteC,
    .lit "modulepreload".toList, .cls .quoteC, .star true .notGt, .bnd,
    .lit "href".toList, .star false .jsWs, .lit "=".toList, .star false .jsWs,
    .cls .quoteC, .grp 1 (.plus .notQuote), .cls .quoteC, .star false .notGt,
    .lit ">".toList]

def scriptPatternB : RE :=
  reSeq [.lit "<script".toList, .plus .notGt, .lit "src=".toList,
    .alt (reSeq [.cls .quoteC, .grp 1 (.plus .notQuote), .cls .quoteC])
      (.grp 2 (.plus .notSpGt)),
    .star false .notGt, .lit ">".toList]

def linkPatternB : RE :=
  reSeq [.lit "<link".toList, .plus .notGt, .lit "href=".toList,
    .alt (reSeq [.cls .quoteC, .grp 1 (.plus .notQuote), .cls .quoteC])
      (.grp 2 (.plus .notSpGt)),
    .star false .notGt, .lit ">".toList]

def crossoriginAttrPattern : RE :=
  reSeq [.alt .bos (.cls .jsWs), .litCI "crossorigin".toList,
    .opt (reSeq [.lit "=".toList, .opt (.cls .quoteC),
      .star false .notQuoteWsGt, .opt (.cls .quoteC)]),
    .alt (.cls .jsWs) (.alt (.lit ">".toList) .eos)]

/-- The hashed-filename pattern `-[a-zA-Z0-9]+\.([^.]+)$` (a non-global JS
regex) of pipeline B's `getBundleKey`. -/
def hashInfixPattern : RE :=
  reSeq [.lit "-".toList, .plus .alnumC, .lit ".".toList,
    .grp 1 (.plus .notDot), .eos]

/-! ## Data model: bundle, content, options, logs, network effects -/

/-- A JS content value as stored in a bundle entry (`chunk.code`,
`asset.source`): a string, a byte array, or `undefined`. -/
inductive JsContent where
  | str (s : String)
  | bytes (b : List Nat)
  | undef
deriving DecidableEq

/-- JS truthiness of a content value: `''` and `undefined` are falsy; any
other string and every `Uint8Array`/`Buffer` (even empty) are truthy. -/
def JsContent.falsy : JsContent → Bool
  | .str s => s = ""
  | .bytes _ => false
  | .undef => true

/-- The bytes the digest primitive consumes: a string is hashed as its UTF-8
bytes (`hash.update(string)` / `Buffer.from(string, 'utf-8')`), a byte array
as-is (`Buffer.from(bytes)`). -/
def JsContent.toBytes : JsContent → List Nat
  | .str s => utf8Bytes s
  | .bytes b => b
  | .undef => []

/-- One emitted bundle entry: `{ type: 'chunk', code }` or
`{ type: 'asset', source }`. -/
structure BundleItem where
  type : String
  code : JsContent
  source : JsContent
deriving DecidableEq

def chunkItem (code : String) : BundleItem :=
  { type := "chunk", code := .str code, source := .undef }

def assetItem (source : JsContent) : BundleItem :=
  { type := "asset", code := .undef, source := source }

/-- The bundle: output path → emitted entry, with `Object.keys` iteration
order = list order. -/
abbrev Bundle := List (String × BundleItem)

def bundleGet (b : Bundle) (k : String) : Option BundleItem :=
  (b.find? (fun p => p.1 = k)).map (·.2)

/-- The content the source reads off an entry:
`item.type === 'chunk' ? item.code : item.source`. -/
def BundleItem.content (item : BundleItem) : JsContent :=
  if item.type = "chunk" then item.code else item.source

/-- The digest primitive (`createHash(alg)` + `digest()`): `none` models an
unsupported algorithm name, for which `createHash` throws. -/
abbrev HashPrim := String → Option (List Nat → List Nat)

inductive LogLevel where
  | debug | info | warn | error
deriving DecidableEq

structure LogEntry where
  level : LogLevel
  msg : String
deriving DecidableEq

def warnLog (m : String) : LogEntry := { level := .warn, msg := m }

def errorLog (m : String) : LogEntry := { level := .error, msg := m }

/-- A network request issued during resolution. -/
inductive NetCall where
  | head (url : String)
  | get (url : String)
deriving DecidableEq

/-- Outcome of one HEAD fetch attempt. -/
inductive HeadOutcome where
  | resp (ok : Bool) (acao : Option String)
  | netError
  | timeout
deriving DecidableEq

/-- Outcome of one GET fetch attempt. -/
inductive GetOutcome where
  | resp (ok : Bool) (body : List Nat)
  | netError
  | timeout
deriving DecidableEq

/-- The network, as an oracle from URL and attempt number to outcome. -/
structure NetEnv where
  headAt : String → Nat → HeadOutcome
  getAt : String → Nat → GetOutcome

/-- The two per-build caches of `CacheManager` (`urlSupportCache`,
`resourceCache`).  The wall-clock TTL expiry of `ResourceCache` is not
modelled: within one build every entry is fresh. -/
structure CacheState where
  urlSupport : List (String × Bool)
  resource : List (String × List Nat)
deriving DecidableEq

def emptyCache : CacheState := { urlSupport := [], resource := [] }

def mapGet (m : List (String × α)) (k : String) : Option α :=
  (m.find? (fun p => p.1 = k)).map (·.2)

def mapSet (m : List (String × α)) (k : String) (v : α) : List (String × α) :=
  (k, v) :: m

/-! ## Platform model: WHATWG URL hostname -/

/-- Split a character list at the first occurrence of `sep` (non-empty). -/
def splitOnSub (l sep : List Char) : Option (List Char × List Char) :=
  match l with
  | [] => if sep.isEmpty then some ([], []) else none
  | h :: t =>
    if sep.isPrefixOf l then some ([], l.drop sep.length)
    else (splitOnSub t sep).map (fun p => (h :: p.1, p.2))

/-- Index of the last occurrence of a character. -/
def lastIndexOfChar (c : Char) : List Char → Option Nat
  | [] => none
  | h :: t =>
    match lastIndexOfChar c t with
    | some i => some (i + 1)
    | none => if h = c then some 0 else none

/-- Modelled platform primitive: the `hostname` of `new URL(url)` for
inputs of the shape `scheme://host[:port][/?#]...` (the shapes this plugin
feeds it); `none` models the URL constructor throwing.  Special schemes
lowercase the host; the inputs exercised here are already lowercase. -/
def urlHostname (url : String) : Option String :=
  let l := url.toList
  match splitOnSub l "://".toList with
  | none => none
  | some (scheme, rest) =>
    if scheme.isEmpty || !(scheme.all (fun c => isAlnumChar c || c = '+' || c = '-' || c = '.')) then
      none
    else
      let host := rest.takeWhile (fun c => c ≠ '/' && c ≠ ':' && c ≠ '?' && c ≠ '#')
      if host.isEmpty then none else some (String.mk (host.map lowerAscii))

/-! ## network-utils.js -/

/-- A JS value passed where a URL string is expected (the predicate also
guards against non-string inputs). -/
inductive JsVal where
  | vstr (s : String)
  | nonString
deriving DecidableEq

/-- `isUrlFromBypassDomain(url, bypassDomains, logger)` from
`network-utils.js`: false for falsy/non-string input and for strings not
starting with `http`; otherwise parse the URL and compare its hostname
(equality or dot-suffix) against the bypass domains; a URL-constructor
throw is caught, logged at warn, and yields false. -/
def isUrlFromBypassDomain (url : JsVal) (bypassDomains : List String) :
    Bool × List LogEntry :=
  match url with
  | .nonString => (false, [])
  | .vstr s =>
    if s = "" || !(strStartsWith s "http") then (false, [])
    else
      match urlHostname s with
      | none => (false, [warnLog ("Invalid URL: " ++ s)])
      | some h =>
        (bypassDomains.any (fun d => h = d || strEndsWith h ("." ++ d)), [])

def isUrlFromBypassDomainS (url : String) (bypassDomains : List String) :
    Bool × List LogEntry :=
  isUrlFromBypassDomain (.vstr url) bypassDomains

/-- The CORS-header verdict of `checkResourceSupport`:
`corsHeader === '*' || corsHeader?.includes('*')` (a missing header is
`null`, and optional chaining makes the verdict false). -/
def acaoStar (acao : Option String) : Bool :=
  match acao with
  | some a => a = "*" || containsSub a.toList "*".toList
  | none => false

/-- The attempt loop of `checkResourceSupport` over attempt indices:
a completed HEAD returns its verdict immediately; a timeout logs and breaks
(timeouts are not retried); other errors move to the next attempt. -/
def headLoop (env : NetEnv) (url : String) :
    List Nat → Option Bool × List NetCall × List LogEntry
  | [] => (none, [], [])
  | i :: rest =>
    match env.headAt url i with
    | .resp ok acao => (some (ok && acaoStar acao), [.head url], [])
    | .timeout =>
      (none, [.head url], [warnLog ("Resource check timed out: " ++ url)])
    | .netError =>
      let (r, cs, ls) := headLoop env url rest
      (r, .head url :: cs, ls)

/-- `checkResourceSupport(url, urlSupportCache, logger, retries = 2)`:
cached verdicts (positive and negative) are returned with no network call;
otherwise run the attempt loop and cache the verdict (`false` when every
attempt fails or times out). -/
def checkResourceSupport (cache : CacheState) (url : String) (env : NetEnv)
    (retries : Nat) : Bool × CacheState × List NetCall × List LogEntry :=
  match mapGet cache.urlSupport url with
  | some v => (v, cache, [], [])
  | none =>
    match headLoop env url (List.range (retries + 1)) with
    | (some v, cs, ls) =>
      (v, { cache with urlSupport := mapSet cache.urlSupport url v }, cs, ls)
    | (none, cs, ls) =>
      (false, { cache with urlSupport := mapSet cache.urlSupport url false },
        cs, ls ++ [warnLog ("Failed to check resource support: " ++ url)])

/-- The attempt loop of `fetchResource`: a 2xx GET returns its bytes; a
non-2xx response throws (`HTTP error!`) and is retried; a timeout logs and
breaks. -/
def getLoop (env : NetEnv) (url : String) :
    List Nat → Option (List Nat) × List NetCall × List LogEntry
  | [] => (none, [], [])
  | i :: rest =>
    match env.getAt url i with
    | .resp true body => (some body, [.get url], [])
    | .resp false _ =>
      let (r, cs, ls) := getLoop env url rest
      (r, .get url :: cs, ls)
    | .timeout =>
      (none, [.get url], [warnLog ("Resource fetch timed out: " ++ url)])
    | .netError =>
      let (r, cs, ls) := getLoop env url rest
      (r, .get url :: cs, ls)

/-- `fetchResource(url, resourceCache, logger, retries = 1)`: cached bytes
are returned with no network call; successful bytes are cached; failure
returns `null` (and is not cached). -/
def fetchResource (cache : CacheState) (url : String) (env : NetEnv)
    (retries : Nat) :
    Option (List Nat) × CacheState × List NetCall × List LogEntry :=
  match mapGet cache.resource url with
  | some data => (some data, cache, [], [])
  | none =>
    match getLoop env url (List.range (retries + 1)) with
    | (some body, cs, ls) =>
      (some body, { cache with resource := mapSet cache.resource url body },
        cs, ls)
    | (none, cs, ls) =>
      (none, cache, cs,
        ls ++ [warnLog ("Failed to fetch external resource: " ++ url)])

/-! ## integrity-calculator (second part of network-utils.js) -/

/-- Options destructured by `calculateIntegrity`. -/
structure SriOptions where
  ignoreMissingAsset : Bool
  bypassDomains : List String
  hashAlgorithm : String
deriving DecidableEq

/-- Resolved Vite config, plus the process working directory consulted by
`path.posix.resolve` when the configured base is relative. -/
structure BuildConfig where
  base : String
  cwd : String
deriving DecidableEq

/-- Node `path.posix.dirname` for ordinary file paths (no trailing slash). -/
def posixDirname (p : String) : String :=
  let l := p.toList
  match lastIndexOfChar '/' l with
  | none => "."
  | some 0 => "/"
  | some i => String.mk (l.take i)

/-- Resolve `.`/`..`/empty segments of an absolute path. -/
def normalizeAbs (p : String) : String :=
  let segs := (splitOnChar '/' p.data).foldl
    (fun acc seg =>
      if seg = [] || seg = ['.'] then acc
      else if seg = ['.', '.'] then acc.dropLast
      else acc ++ [seg]) []
  "/" ++ String.mk (joinWith '/' segs)

/-- Node `path.posix.resolve(dir, url)`: right-most absolute segment wins;
a fully relative stack is resolved against the process working directory. -/
def posixResolve2 (cwd dir url : String) : String :=
  if strStartsWith url "/" then normalizeAbs url
  else if strStartsWith dir "/" then normalizeAbs (dir ++ "/" ++ url)
  else normalizeAbs (cwd ++ "/" ++ dir ++ "/" ++ url)

/-- `getBundleKey(htmlPath, url, config)` from the integrity calculator:
strip a leading `/`; with a relative base resolve against the HTML file's
directory; otherwise strip the base prefix when present. -/
def getBundleKeyA (htmlPath url : String) (cfg : BuildConfig) : String :=
  if strStartsWith url "/" then strDrop url 1
  else if cfg.base = "./" || cfg.base = "" then
    posixResolve2 cfg.cwd (posixDirname htmlPath) url
  else if strStartsWith url cfg.base then strDrop url (strLen cfg.base)
  else url

/-- The bundle lookup of `calculateIntegrity`: the direct key
(`bundle[bundleKey]`), else the first fuzzy match
(`Object.keys(bundle).find(key => key.endsWith(bundleKey) ||
bundleKey.endsWith(key))`). -/
def resolveBundleSource (bundle : Bundle) (bundleKey : String) :
    Option BundleItem :=
  match bundleGet bundle bundleKey with
  | some item => some item
  | none =>
    (bundle.find? (fun p =>
      strEndsWith p.1 bundleKey || strEndsWith bundleKey p.1)).map (·.2)

/-- The digest expression
`` `${hashAlgorithm}-${createHash(hashAlgorithm).update(source).digest('base64')}` ``;
`none` of the primitive models `createHash` throwing. -/
def digestExpr (hp : HashPrim) (alg : String) (source : JsContent) :
    Option String :=
  (hp alg).map (fun f => alg ++ "-" ++ String.mk (base64Encode (f source.toBytes)))

/-- `calculateIntegrity(bundle, htmlPath, url, options, config, cacheManager,
logger)`.  The value is `Except` because the missing-asset branch throws and
an invalid algorithm makes `createHash` throw (uncaught here); alongside it
are the updated caches, the network calls issued, and the log entries. -/
def calculateIntegrity (bundle : Bundle) (htmlPath url : String)
    (opts : SriOptions) (cfg : BuildConfig) (cache : CacheState) (env : NetEnv)
    (hp : HashPrim) :
    Except String (Option String) × CacheState × List NetCall × List LogEntry :=
  let bypass := isUrlFromBypassDomainS url opts.bypassDomains
  if bypass.1 then (.ok none, cache, [], bypass.2)
  else
    let fromSource (source : JsContent) (cache1 : CacheState)
        (calls : List NetCall) (logs : List LogEntry) :
        Except String (Option String) × CacheState × List NetCall × List LogEntry :=
      if source.falsy then (.ok none, cache1, calls, logs)
      else
        match digestExpr hp opts.hashAlgorithm source with
        | none =>
          (.error ("Digest method not supported: " ++ opts.hashAlgorithm),
            cache1, calls, logs)
        | some d => (.ok (some d), cache1, calls, logs)
    if strStartsWith url "http" then
      let (sup, cache1, calls1, logs1) := checkResourceSupport cache url env 2
      if !sup then (.ok none, cache1, calls1, bypass.2 ++ logs1)
      else
        let (res, cache2, calls2, logs2) := fetchResource cache1 url env 1
        match res with
        | none =>
          (.ok none, cache2, calls1 ++ calls2, bypass.2 ++ logs1 ++ logs2)
        | some body =>
          fromSource (.bytes body) cache2 (calls1 ++ calls2)
            (bypass.2 ++ logs1 ++ logs2)
    else
      let bundleKey := getBundleKeyA htmlPath url cfg
      match resolveBundleSource bundle bundleKey with
      | some item => fromSource item.content cache [] bypass.2
      | none =>
        if opts.ignoreMissingAsset then
          (.ok none, cache, [],
            bypass.2 ++ [warnLog ("Asset not found in bundle: " ++ url ++
              " (path: " ++ htmlPath ++ ", key: " ++ bundleKey ++ ")")])
        else
          (.error ("Asset " ++ url ++ " not found in bundle (path: " ++
            htmlPath ++ ", key: " ++ bundleKey ++ ")"), cache, [], bypass.2)

/-! ## html-parser.js (pipeline A) -/

/-- A pending insertion (`{ integrity, position, url }` from `processMatch`). -/
structure Change where
  integrity : String
  position : Nat
  url : String
deriving DecidableEq

/-- The needle `hasExistingIntegrity` searches for:
`` `integrity="${integrity}"` ``. -/
def needleOf (integrity : String) : List Char :=
  ("integrity=\"" ++ integrity ++ "\"").toList

/-- The text `applyIntegrityChanges` splices in:
`` ` integrity="${integrity}"` ``. -/
def insertTextOf (integrity : String) : List Char :=
  (" integrity=\"" ++ integrity ++ "\"").toList

/-- `hasExistingIntegrity(html, position, integrity)`: search the segment
`html.slice(Math.max(0, position - 100), position + 100)` for the needle. -/
def hasExistingIntegrity (html : List Char) (position : Nat)
    (integrity : String) : Bool :=
  containsSub (sliceJs html (position - 100) (position + 100))
    (needleOf integrity)

/-- The splice loop of `applyIntegrityChanges` over the already-sorted list:
skip a change whose needle is in the window, otherwise splice its text in at
its offset. -/
def applyGo : List Change → List Char → List Char
  | [], html => html
  | c :: rest, html =>
    if hasExistingIntegrity html c.position c.integrity then applyGo rest html
    else applyGo rest (insertAt html c.position (insertTextOf c.integrity))

/-- `applyIntegrityChanges(html, changes, logger)`: sort by position
descending (`changes.sort((a, b) => b.position - a.position)`, a stable
sort) and splice back-to-front. -/
def applyIntegrityChanges (html : List Char) (changes : List Change) :
    List Char :=
  applyGo (sortByKeyDesc (fun c => c.position) changes) html

/-- `processMatch(match, endOffset, ...)`: read `match[1]` as the URL (a
falsy capture yields no change), compute the integrity, and on success
record a change at `match.index + match[0].length - endOffset`. -/
def processMatch (m : MatchRes) (endOffset : Nat) (bundle : Bundle)
    (htmlPath : String) (opts : SriOptions) (cfg : BuildConfig)
    (cache : CacheState) (env : NetEnv) (hp : HashPrim) :
    Except String (Option Change) × CacheState × List NetCall × List LogEntry :=
  match capGet m.caps 1 with
  | none => (.ok none, cache, [], [])
  | some u =>
    if u.isEmpty then (.ok none, cache, [], [])
    else
      let url := String.mk u
      let endPos := m.index + m.text.length
      let (r, c1, calls, logs) :=
        calculateIntegrity bundle htmlPath url opts cfg cache env hp
      match r with
      | .error e => (.error e, c1, calls, logs)
      | .ok none => (.ok none, c1, calls, logs)
      | .ok (some d) =>
        (.ok (some (Change.mk d (endPos - endOffset) url)), c1, calls, logs)

/-- Process the matches of one pattern in match order, threading the cache
(the source runs them under `Promise.all`; the first rejection rejects the
whole transform, which the `Except` propagation models). -/
def collectFromMatches (bundle : Bundle) (htmlPath : String)
    (opts : SriOptions) (cfg : BuildConfig) (env : NetEnv) (hp : HashPrim)
    (endOffset : Nat) :
    List MatchRes → CacheState →
      Except String (List Change) × CacheState × List NetCall × List LogEntry
  | [], cache => (.ok [], cache, [], [])
  | m :: rest, cache =>
    let (r, c1, calls1, logs1) :=
      processMatch m endOffset bundle htmlPath opts cfg cache env hp
    match r with
    | .error e => (.error e, c1, calls1, logs1)
    | .ok oc =>
      let (r2, c2, calls2, logs2) :=
        collectFromMatches bundle htmlPath opts cfg env hp endOffset rest c1
      match r2 with
      | .error e => (.error e, c2, calls1 ++ calls2, logs1 ++ logs2)
      | .ok cs =>
        (.ok (match oc with | some c => c :: cs | none => cs), c2,
          calls1 ++ calls2, logs1 ++ logs2)

/-- The `HTML_PATTERNS` table with its `endOffset`s. -/
def htmlPatternsA : List (RE × Nat) :=
  [(scriptPatternA, 10), (stylesheetPatternA, 1), (modulepreloadPatternA, 1)]

/-- `collectIntegrityChanges`: gather the changes of every pattern.  The
source launches the three patterns concurrently and pushes each pattern's
changes on completion, so the cross-pattern order of `changes` is
completion order; the model uses table order, which is immaterial because
`applyIntegrityChanges` sorts by position. -/
def collectPatternsGo (html : List Char) (bundle : Bundle) (htmlPath : String)
    (opts : SriOptions) (cfg : BuildConfig) (env : NetEnv) (hp : HashPrim) :
    List (RE × Nat) → CacheState →
      Except String (List Change) × CacheState × List NetCall × List LogEntry
  | [], c => (.ok [], c, [], [])
  | (re, off) :: rest, c =>
    let (r, c1, calls1, logs1) :=
      collectFromMatches bundle htmlPath opts cfg env hp off (scanAll re html) c
    match r with
    | .error e => (.error e, c1, calls1, logs1)
    | .ok cs1 =>
      let (r2, c2, calls2, logs2) :=
        collectPatternsGo html bundle htmlPath opts cfg env hp rest c1
      match r2 with
      | .error e => (.error e, c2, calls1 ++ calls2, logs1 ++ logs2)
      | .ok cs2 => (.ok (cs1 ++ cs2), c2, calls1 ++ calls2, logs1 ++ logs2)

def collectIntegrityChanges (html : List Char) (bundle : Bundle)
    (htmlPath : String) (opts : SriOptions) (cfg : BuildConfig)
    (cache : CacheState) (env : NetEnv) (hp : HashPrim) :
    Except String (List Change) × CacheState × List NetCall × List LogEntry :=
  collectPatternsGo html bundle htmlPath opts cfg env hp htmlPatternsA cache

/-- `transformHTML(bundle, htmlPath, html, ...)`: empty input short-circuits
with a warning; otherwise collect all changes (a thrown missing-asset or
digest error propagates) and apply them in batch. -/
def transformHTML (bundle : Bundle) (htmlPath html : String)
    (opts : SriOptions) (cfg : BuildConfig) (cache : CacheState) (env : NetEnv)
    (hp : HashPrim) :
    Except String String × CacheState × List NetCall × List LogEntry :=
  if html = "" then
    (.ok html, cache, [], [warnLog ("Invalid HTML content for " ++ htmlPath)])
  else
    let (r, c1, calls, logs) :=
      collectIntegrityChanges html.toList bundle htmlPath opts cfg cache env hp
    match r with
    | .error e => (.error e, c1, calls, logs)
    | .ok changes =>
      (.ok (String.mk (applyIntegrityChanges html.toList changes)), c1, calls,
        logs)

/-! ## index.js, first variant (pipeline B) -/

/-- The plugin's configured options `{ ...DEFAULT_OPTIONS, ...userOptions }`
(index.js line 207), extended by `configResolved` with `options.domain`.
Inside `writeBundle` these are never read: the hook parameter of
`async writeBundle(options, bundle)` (line 267) shadows them. -/
structure PluginOptions where
  algorithm : String
  bypassDomains : List String
  crossorigin : String
  ignoreMissingAsset : Bool
  domain : String
deriving DecidableEq

/-- `DEFAULT_OPTIONS` (domain defaults to `''` when no server host is
configured). -/
def defaultPluginOptions : PluginOptions :=
  { algorithm := "sha384", bypassDomains := [], crossorigin := "anonymous",
    ignoreMissingAsset := false, domain := "" }

/-- The options object the host actually passes to the
`writeBundle(options, bundle)` hook: Rollup's output options.  Because the
hook parameter shadows the plugin's configured options, every `options.*`
read inside `writeBundle` comes from this object; `Option` fields model
that a property may be absent (`undefined`), which is the case for all of
these on real Rollup output options. -/
structure OutputOptions where
  algorithm : Option String
  crossorigin : Option String
  bypassDomains : Option (List String)
  ignoreMissingAsset : Option Bool
  domain : Option String
deriving DecidableEq

/-- Rollup output options carry none of the plugin's option properties:
`options.algorithm`, `options.crossorigin`, `options.bypassDomains`,
`options.ignoreMissingAsset` and `options.domain` are all `undefined`
inside `writeBundle`. -/
def rollupOutputOptions : OutputOptions :=
  { algorithm := none, crossorigin := none, bypassDomains := none,
    ignoreMissingAsset := none, domain := none }

/-- JS template-literal interpolation of a possibly-`undefined` string:
`` `${undefined}` `` produces the text `undefined`. -/
def jsInterp (v : Option String) : String :=
  v.getD "undefined"

/-- JS truthiness of a possibly-`undefined` boolean property
(`options.ignoreMissingAsset`): `undefined` is falsy. -/
def jsTruthy (v : Option Bool) : Bool :=
  v.getD false

/-- `computeSri(content, algorithm)`: `createHash(algorithm)` throws for an
unknown algorithm and a non-string, non-byte content throws
`Invalid content type`; both are caught, logged at error level, and
converted to `null`. -/
def computeSri (hp : HashPrim) (content : JsContent) (alg : String) :
    Option String × List LogEntry :=
  match hp alg with
  | none =>
    (none, [errorLog ("Failed to compute SRI hash: Digest method not supported: "
      ++ alg)])
  | some f =>
    match content with
    | .undef => (none, [errorLog "Failed to compute SRI hash: Invalid content type"])
    | c => (some (alg ++ "-" ++ String.mk (base64Encode (f c.toBytes))), [])

/-- `externalResourceIsCorsEnabled(url, options)`: one HEAD fetch; true iff
the `Access-Control-Allow-Origin` header is truthy and equals `*` or
contains `options.domain || ''` (so any truthy header passes when no domain
is present, as inside `writeBundle`, where `options.domain` is the
shadowing hook parameter's and `undefined`); fetch errors are logged and
yield false.  The response status is never consulted. -/
def externalResourceIsCorsEnabled (url : String) (domain : Option String)
    (env : NetEnv) : Bool × List NetCall × List LogEntry :=
  match env.headAt url 0 with
  | .resp _ acao =>
    match acao with
    | some a =>
      if a ≠ "" && (a = "*" || containsSub a.toList (domain.getD "").toList)
      then (true, [.head url], [])
      else (false, [.head url], [])
    | none => (false, [.head url], [])
  | _ =>
    (false, [.head url],
      [errorLog ("Failed to fetch CORS headers from " ++ url)])

/-- The hostname extraction inside `isBypassDomain` (index.js variant):
strip an `http://`, `https://` or `//` prefix, then cut at the first `/`
and the first `:`. -/
def extractHostname (url : String) : String :=
  let h1 :=
    if strStartsWith url "http://" then strDrop url 7
    else if strStartsWith url "https://" then strDrop url 8
    else if strStartsWith url "//" then strDrop url 2
    else url
  let h2 := (splitOnChar '/' h1.data).headD h1.data
  String.mk ((splitOnChar ':' h2).headD h2)

/-- `isBypassDomain(url, bypassDomains)` (index.js variant): hostname equals
a bypass domain or is a dot-suffix subdomain of one. -/
def isBypassDomain (url : String) (bypassDomains : List String) : Bool :=
  if bypassDomains.isEmpty then false
  else
    let hostname := extractHostname url
    bypassDomains.any (fun d => hostname = d || strEndsWith hostname ("." ++ d))

/-- `hasCrossOriginAttr(tag)`. -/
def hasCrossOriginAttr (tag : String) : Bool :=
  reTest crossoriginAttrPattern tag.toList

/-- The external-URL test `/^(https?:)?\/\//i`. -/
def isExternalUrl (url : String) : Bool :=
  let l := url.toList.map lowerAscii
  "//".toList.isPrefixOf l || "http://".toList.isPrefixOf l ||
    "https://".toList.isPrefixOf l

/-- `cleanUrl.replace(/^static\//, '')`. -/
def stripStatic (s : String) : String :=
  if strStartsWith s "static/" then strDrop s 7 else s

/-- The rewrite `cleanUrl.replace(hashInfixPattern, '.$1')` (a non-global
regex): rewrite the first (leftmost) hashed-filename match. -/
def hashStripReplace (s : String) : String :=
  match (scanAll hashInfixPattern s.toList).head? with
  | none => s
  | some m =>
    String.mk (s.toList.take m.index ++ '.' :: (capGet m.caps 1).getD [])

def dedupeGo : List String → List String → List String
  | [], _ => []
  | h :: t, seen =>
    if seen.contains h then dedupeGo t seen else h :: dedupeGo t (h :: seen)

/-- `[...new Set(paths)]`: first-occurrence deduplication. -/
def dedupe (l : List String) : List String :=
  dedupeGo l []

/-- `getBundleKey(url, base)` (index.js variant): strip the base prefix and
a leading slash, then try the cleaned path, a `static/`-prefixed and a
`static/`-stripped variant, and the same three with a build-hash infix
removed. -/
def getBundleKeyB (url base : String) : List String :=
  let cleanUrl0 :=
    if strStartsWith url base then strDrop url (strLen base) else url
  let cleanUrl :=
    if strStartsWith cleanUrl0 "/" then strDrop cleanUrl0 1 else cleanUrl0
  let paths := [cleanUrl, "static/" ++ cleanUrl, stripStatic cleanUrl]
  let withoutHash := hashStripReplace cleanUrl
  let allPaths :=
    if withoutHash ≠ cleanUrl then
      paths ++ [withoutHash, "static/" ++ withoutHash, stripStatic withoutHash]
    else paths
  dedupe allPaths

/-- The `for (const key of possibleKeys) if (bundle[key])` lookup loop. -/
def findFirstKey (bundle : Bundle) : List String → Option BundleItem
  | [] => none
  | k :: rest =>
    match bundleGet bundle k with
    | some it => some it
    | none => findFirstKey bundle rest

/-- `tag.replace(/>$/, ` + integrity and (when absent) crossorigin +`>`)`:
the two attributes are appended immediately before the closing `>`. -/
def withSriAttrs (tag hash crossoriginVal : String) : String :=
  let crossOriginAttr :=
    if hasCrossOriginAttr tag then ""
    else " crossorigin=\"" ++ crossoriginVal ++ "\""
  if strEndsWith tag ">" then
    strDropRight tag 1 ++ " integrity=\"" ++ hash ++ "\"" ++ crossOriginAttr
      ++ ">"
  else tag

/-- The tag collection of `transformIndexHtml` (variant B): script tags by
`src`, link tags by `href` when the tag text mentions `stylesheet` or
`modulepreload`; `match[1] || match[2]` is the URL. -/
def collectResourceTags (html : String) : List (String × String) :=
  let urlOf : MatchRes → String := fun m =>
    String.mk ((capGet m.caps 1).getD ((capGet m.caps 2).getD []))
  ((scanAll scriptPatternB html.toList).map
    (fun m => (String.mk m.text, urlOf m))) ++
  ((scanAll linkPatternB html.toList).filterMap (fun m =>
    if containsSub m.text "stylesheet".toList ||
        containsSub m.text "modulepreload".toList then
      some (String.mk m.text, urlOf m)
    else none))

/-- One resource update inside `writeBundle`: returns the
`{ tag, newTag }` replacement (if any) plus the updated `sriCache` and the
effects.  Tags that already contain `integrity=` are skipped; external URLs
go through bypass, `sriCache`, CORS gating and a GET; local URLs through the
bundle-key search and `computeSri`.  The options are the hook parameter's
(Rollup's output options — the plugin's configured options are shadowed):
`options.bypassDomains` falls back to `isBypassDomain`'s default `[]`,
`options.algorithm` to `computeSri`'s default `sha384`,
`` `${options.crossorigin}` `` interpolates `undefined` to the literal text
`undefined`, and `!options.ignoreMissingAsset` treats `undefined` as
falsy. -/
def processResourceB (tag url : String) (opts : OutputOptions)
    (bundle : Bundle) (base : String) (env : NetEnv) (hp : HashPrim)
    (sriCache : List (String × String)) :
    Option (String × String) × List (String × String) × List NetCall ×
      List LogEntry :=
  if containsSub tag.toList "integrity=".toList then (none, sriCache, [], [])
  else if isExternalUrl url then
    if isBypassDomain url (opts.bypassDomains.getD []) then
      (none, sriCache, [], [])
    else
      match mapGet sriCache url with
      | some newTag => (some (tag, newTag), sriCache, [], [])
      | none =>
        let (corsOk, calls1, logs1) :=
          externalResourceIsCorsEnabled url opts.domain env
        if !corsOk then (none, sriCache, calls1, logs1)
        else
          match env.getAt url 0 with
          | .resp _ body =>
            let (h, logs2) :=
              computeSri hp (.bytes body) (opts.algorithm.getD "sha384")
            match h with
            | some hash =>
              let newTag := withSriAttrs tag hash (jsInterp opts.crossorigin)
              (some (tag, newTag), mapSet sriCache url newTag,
                calls1 ++ [.get url], logs1 ++ logs2)
            | none => (none, sriCache, calls1 ++ [.get url], logs1 ++ logs2)
          | _ => (none, sriCache, calls1 ++ [.get url], logs1)
  else
    match findFirstKey bundle (getBundleKeyB url base) with
    | none =>
      (none, sriCache, [],
        if !jsTruthy opts.ignoreMissingAsset then
          [warnLog ("Asset not found in bundle: " ++ url)]
        else [])
    | some item =>
      let (h, logs2) :=
        computeSri hp item.content (opts.algorithm.getD "sha384")
      match h with
      | some hash =>
        (some (tag, withSriAttrs tag hash (jsInterp opts.crossorigin)),
          sriCache, [], logs2)
      | none => (none, sriCache, [], logs2)

/-- The per-document `writeBundle` processing: collect the resource tags,
compute their updates (threading `sriCache`), and apply each update with
`content.replace(tag, newTag)` (first occurrence).  `opts` is the hook
parameter — the host's output options, `rollupOutputOptions` in a real
run — not the plugin's configured options, which the parameter shadows. -/
def writeBundleGo (opts : OutputOptions) (bundle : Bundle) (base : String)
    (env : NetEnv) (hp : HashPrim) :
    List (String × String) → List (String × String) →
      List (String × String) × List NetCall × List LogEntry
  | [], _ => ([], [], [])
  | (tag, url) :: rest, sc =>
    let (upd, sc1, calls1, logs1) :=
      processResourceB tag url opts bundle base env hp sc
    let (upds, calls2, logs2) := writeBundleGo opts bundle base env hp rest sc1
    ((match upd with | some u => u :: upds | none => upds),
      calls1 ++ calls2, logs1 ++ logs2)

def writeBundleHtml (html : String) (bundle : Bundle) (opts : OutputOptions)
    (base : String) (env : NetEnv) (hp : HashPrim) :
    String × List NetCall × List LogEntry :=
  let (upds, calls, logs) :=
    writeBundleGo opts bundle base env hp (collectResourceTags html) []
  (upds.foldl
    (fun c u => String.mk (replaceFirst c.toList u.1.toList u.2.toList)) html,
    calls, logs)

/-! ## Specification-side definitions used by the theorems -/

/-- The splice loop of `applyIntegrityChanges` without the dedup check. -/
def spliceAllDesc : List Change → List Char → List Char
  | [], l => l
  | c :: rest, l =>
    spliceAllDesc rest (insertAt l c.position (insertTextOf c.integrity))

/-- Insert texts at ascending original-document offsets (`ofs` characters of
the original already emitted): each pair `(p, t)` lands exactly between the
original characters `p - 1` and `p`, unshifted by the other insertions. -/
def interleaveGo (ofs : Nat) (l : List Char) :
    List (Nat × List Char) → List Char
  | [] => l
  | (p, t) :: rest =>
    l.take (p - ofs) ++ t ++ interleaveGo p (l.drop (p - ofs)) rest

/-- Insert texts at ascending original-document offsets. -/
def interleave (l : List Char) (cs : List (Nat × List Char)) : List Char :=
  interleaveGo 0 l cs

/-- The ascending `(offset, insert text)` view of a change list. -/
def ascChangeViews (changes : List Change) : List (Nat × List Char) :=
  ((sortByKeyDesc (fun c => c.position) changes).reverse).map
    (fun c => (c.position, insertTextOf c.integrity))

/-! ## Concrete fixtures for the witnesses and counterexamples -/

/-- A stand-in digest primitive supporting `sha256`, `sha384` and `sha512`
with the real output sizes (32, 48 and 64 bytes), with the digest depending
on the input length. -/
def hpTest : HashPrim := fun alg =>
  if alg = "sha256" then
    some (fun b => (List.range 32).map (fun i => (i + b.length) % 256))
  else if alg = "sha384" then
    some (fun b => (List.range 48).map (fun i => (i + b.length) % 256))
  else if alg = "sha512" then
    some (fun b => (List.range 64).map (fun i => (i + b.length) % 256))
  else none

/-- A network on which every request fails. -/
def noNet : NetEnv :=
  { headAt := fun _ _ => .netError, getAt := fun _ _ => .netError }

/-- A permissive external host: `Access-Control-Allow-Origin: *` and a
3-byte body. -/
def corsStarEnv : NetEnv :=
  { headAt := fun _ _ => .resp true (some "*"),
    getAt := fun _ _ => .resp true [1, 2, 3] }

/-- An external host answering 2xx with
`Access-Control-Allow-Origin: https://app.example.com` (no `*`). -/
def corsDomainEnv : NetEnv :=
  { headAt := fun _ _ => .resp true (some "https://app.example.com"),
    getAt := fun _ _ => .resp true [1, 2, 3] }

def optsIgnore384 : SriOptions :=
  { ignoreMissingAsset := true, bypassDomains := [], hashAlgorithm := "sha384" }

def optsFail384 : SriOptions :=
  { ignoreMissingAsset := false, bypassDomains := [], hashAlgorithm := "sha384" }

def optsIgnore256 : SriOptions :=
  { ignoreMissingAsset := true, bypassDomains := [], hashAlgorithm := "sha256" }

def optsIgnore512 : SriOptions :=
  { ignoreMissingAsset := true, bypassDomains := [], hashAlgorithm := "sha512" }

def optsBypassCdn : SriOptions :=
  { ignoreMissingAsset := true, bypassDomains := ["cdn.example.com"],
    hashAlgorithm := "sha384" }

def cfgSlash : BuildConfig := { base := "/", cwd := "/work" }

def bundleApp : Bundle := [("app.js", chunkItem "console.log(\"test\")")]

def bundleA : Bundle := [("a.js", chunkItem "x")]

def bundleLib : Bundle := [("lib.js", chunkItem "x")]

def bundle123 : Bundle := [("123", chunkItem "y")]

def bundleEmptyChunk : Bundle := [("app.js", chunkItem "")]

/-! ## Helper lemmas: the stable sort -/

theorem insDesc_perm (key : α → Nat) (x : α) (l : List α) :
    (insDesc key x l).Perm (x :: l) := by
  induction l with
  | nil => simp [insDesc]
  | cons y t ih =>
    by_cases h : key y < key x
    · simp [insDesc, h]
    · simp only [insDesc, h, if_neg, if_false]
      exact (ih.cons y).trans (List.Perm.swap x y t)

theorem sortByKeyDesc_perm (key : α → Nat) (l : List α) :
    (sortByKeyDesc key l).Perm l := by
  induction l with
  | nil => simp [sortByKeyDesc]
  | cons x t ih =>
    simpa [sortByKeyDesc] using
      (insDesc_perm key x (sortByKeyDesc key t)).trans (ih.cons x)

theorem insDesc_sorted (key : α → Nat) (x : α) (l : List α)
    (h : l.Pairwise (fun a b => key b ≤ key a)) :
    (insDesc key x l).Pairwise (fun a b => key b ≤ key a) := by
  induction l with
  | nil => simp [insDesc]
  | cons y t ih =>
    rcases List.pairwise_cons.mp h with ⟨hy, ht⟩
    by_cases hlt : key y < key x
    · simp only [insDesc, hlt, if_true]
      refine List.pairwise_cons.mpr ⟨?_, h⟩
      intro b hb
      rcases List.mem_cons.mp hb with hbe | hbt
      · subst hbe; omega
      · exact le_trans (hy b hbt) (le_of_lt hlt)
    · simp only [insDesc, hlt, if_false]
      refine List.pairwise_cons.mpr ⟨?_, ih ht⟩
      intro b hb
      have hb2 := (insDesc_perm key x t).mem_iff.mp hb
      rcases List.mem_cons.mp hb2 with hbe | hbt
      · subst hbe; omega
      · exact hy b hbt

theorem sortByKeyDesc_sorted (key : α → Nat) (l : List α) :
    (sortByKeyDesc key l).Pairwise (fun a b => key b ≤ key a) := by
  induction l with
  | nil => simp [sortByKeyDesc]
  | cons x t ih => exact insDesc_sorted key x _ ih

/-! ## Helper lemmas: base64 -/

theorem b64idx_b64c : ∀ n < 64, b64idx (b64c n) = n := by decide

theorem b64c_ne_eq : ∀ n < 64, b64c n ≠ '=' := by decide

theorem base64Encode_ne_nil (x : Nat) (xs : List Nat) :
    base64Encode (x :: xs) ≠ [] := by
  match xs with
  | [] => simp [base64Encode]
  | [y] => simp [base64Encode]
  | y :: z :: r => simp [base64Encode]

theorem base64_roundtrip (l : List Nat) (h : ∀ x ∈ l, x < 256) :
    base64Decode (base64Encode l) = l := by
  induction l using base64Encode.induct with
  | case1 => rfl
  | case2 a =>
    have ha : a < 256 := h a (by simp)
    have h1 : a / 4 < 64 := by omega
    have h2 : a % 4 * 16 < 64 := by omega
    simp only [base64Encode, base64Decode, List.isEmpty_nil, if_true,
      b64idx_b64c _ h1, b64idx_b64c _ h2]
    norm_num
    omega
  | case3 a b =>
    have ha : a < 256 := h a (by simp)
    have hb : b < 256 := h b (by simp)
    have h1 : a / 4 < 64 := by omega
    have h2 : a % 4 * 16 + b / 16 < 64 := by omega
    have h3 : b % 16 * 4 < 64 := by omega
    have hne := b64c_ne_eq _ h3
    simp only [base64Encode, base64Decode, List.isEmpty_nil, if_true, hne,
      if_false, b64idx_b64c _ h1, b64idx_b64c _ h2, b64idx_b64c _ h3]
    norm_num
    constructor <;> omega
  | case4 a b c rest ih =>
    have ha : a < 256 := h a (by simp)
    have hb : b < 256 := h b (by simp)
    have hc : c < 256 := h c (by simp)
    have h1 : a / 4 < 64 := by omega
    have h2 : a % 4 * 16 + b / 16 < 64 := by omega
    have h3 : b % 16 * 4 + c / 64 < 64 := by omega
    have h4 : c % 64 < 64 := by omega
    have ihh := ih (fun x hx => h x (by simp [hx]))
    match hrest : rest with
    | [] =>
      have hne4 := b64c_ne_eq _ h4
      simp only [base64Encode, base64Decode, List.isEmpty_nil, if_true, hne4,
        if_false, b64idx_b64c _ h1, b64idx_b64c _ h2, b64idx_b64c _ h3,
        b64idx_b64c _ h4]
      norm_num
      refine ⟨by omega, by omega, by omega⟩
    | r :: rs =>
      have hner : base64Encode (r :: rs) ≠ [] := base64Encode_ne_nil r rs
      have hempty : (base64Encode (r :: rs)).isEmpty = false := by
        cases hE : base64Encode (r :: rs) with
        | nil => exact absurd hE hner
        | cons _ _ => rfl
      simp only [base64Encode, base64Decode, hempty, if_false,
        b64idx_b64c _ h1, b64idx_b64c _ h2, b64idx_b64c _ h3, b64idx_b64c _ h4]
      rw [ihh]
      norm_num
      refine ⟨by omega, by omega, by omega⟩

/-- Base64 encoding is injective on byte lists. -/
theorem base64Encode_injective (l1 l2 : List Nat)
    (h1 : ∀ x ∈ l1, x < 256) (h2 : ∀ x ∈ l2, x < 256)
    (he : base64Encode l1 = base64Encode l2) : l1 = l2 := by
  have := base64_roundtrip l1 h1
  rw [he, base64_roundtrip l2 h2] at this
  exact this.symm

/-! ## Helper lemmas: splicing at offsets -/

theorem take_insertAt (l t : List Char) (p q : Nat) (hqp : q ≤ p)
    (hp : p ≤ l.length) : (insertAt l p t).take q = l.take q := by
  unfold insertAt
  rw [List.append_assoc, List.take_append_eq_append_take]
  have hlen : (l.take p).length = p := by rw [List.length_take]; omega
  rw [hlen]
  have hq0 : q - p = 0 := by omega
  rw [hq0, List.take_zero, List.append_nil, List.take_take,
    inf_eq_left.mpr hqp]

theorem drop_insertAt (l t : List Char) (p q : Nat) (hqp : q ≤ p)
    (hp : p ≤ l.length) :
    (insertAt l p t).drop q = insertAt (l.drop q) (p - q) t := by
  unfold insertAt
  rw [List.append_assoc, List.drop_append_eq_append_drop]
  have hlen : (l.take p).length = p := by rw [List.length_take]; omega
  rw [hlen]
  have hq0 : q - p = 0 := by omega
  rw [hq0, List.drop_zero, List.drop_take]
  have hdd : List.drop (p - q) (List.drop q l) = List.drop p l := by
    rw [List.drop_drop]
    congr 1
    omega
  rw [← hdd, List.append_assoc]

theorem length_insertAt_ge (l t : List Char) (p : Nat) :
    l.length ≤ (insertAt l p t).length := by
  simp only [insertAt, List.length_append, List.length_take, List.length_drop]
  omega

theorem hasExisting_insertAt (l t : List Char) (p q : Nat) (i : String)
    (hq : q + 100 ≤ p) (hp : p ≤ l.length) :
    hasExistingIntegrity (insertAt l p t) q i = hasExistingIntegrity l q i := by
  unfold hasExistingIntegrity sliceJs
  rw [take_insertAt l t p (q + 100) hq hp]

/-- The splice loop never skips when every pending change's window (in the
current document) is needle-free, so it coincides with the unconditional
back-to-front splice. -/
theorem applyGo_eq_spliceAll (cs : List Change) :
    ∀ l : List Char,
    cs.Pairwise (fun a b => b.position + 100 < a.position) →
    (∀ c ∈ cs, c.position ≤ l.length) →
    (∀ c ∈ cs, hasExistingIntegrity l c.position c.integrity = false) →
    applyGo cs l = spliceAllDesc cs l := by
  induction cs with
  | nil => intro l _ _ _; rfl
  | cons c rest ih =>
    intro l hsort hlen hwin
    rcases List.pairwise_cons.mp hsort with ⟨hhead, htail⟩
    have hskip : hasExistingIntegrity l c.position c.integrity = false :=
      hwin c (by simp)
    simp only [applyGo, spliceAllDesc, hskip, Bool.false_eq_true, if_false]
    apply ih
    · exact htail
    · intro c2 hc2
      exact le_trans (hlen c2 (by simp [hc2]))
        (length_insertAt_ge l _ c.position)
    · intro c2 hc2
      have hgap := hhead c2 hc2
      rw [hasExisting_insertAt l _ c.position c2.position _ (by omega)
        (hlen c (by simp))]
      exact hwin c2 (by simp [hc2])

/-- Appending a maximal-offset insertion to the ascending view is the same
as splicing it first. -/
theorem interleaveGo_snoc (asc : List (Nat × List Char)) :
    ∀ (ofs p : Nat) (l t : List Char),
    asc.Pairwise (fun a b => a.1 ≤ b.1) →
    (∀ q ∈ asc, ofs ≤ q.1 ∧ q.1 ≤ p) → ofs ≤ p → p - ofs ≤ l.length →
    interleaveGo ofs l (asc ++ [(p, t)]) =
      interleaveGo ofs (insertAt l (p - ofs) t) asc := by
  induction asc with
  | nil =>
    intro ofs p l t _ _ _ _
    simp [interleaveGo, insertAt]
  | cons qu asc2 ih =>
    rcases qu with ⟨q, u⟩
    intro ofs p l t hsort hall hop hpl
    rcases hall (q, u) (by simp) with ⟨hoq, hqp⟩
    rcases List.pairwise_cons.mp hsort with ⟨hqle, htail⟩
    simp only [List.cons_append, interleaveGo]
    rw [take_insertAt l t (p - ofs) (q - ofs) (by omega) hpl]
    rw [drop_insertAt l t (p - ofs) (q - ofs) (by omega) hpl]
    have hpq : p - ofs - (q - ofs) = p - q := by omega
    rw [hpq]
    have hrec := ih q p (l.drop (q - ofs)) t htail
      (fun r hr => ⟨hqle r hr, (hall r (by simp [hr])).2⟩) hqp
      (by rw [List.length_drop]; omega)
    simp only [List.append_eq]
    rw [hrec]

/-- The unconditional back-to-front splice inserts every change at its
original-document offset. -/
theorem spliceAllDesc_eq_interleave (cs : List Change) :
    ∀ l : List Char,
    cs.Pairwise (fun a b => b.position < a.position) →
    (∀ c ∈ cs, c.position ≤ l.length) →
    spliceAllDesc cs l =
      interleave l (cs.reverse.map (fun c => (c.position, insertTextOf c.integrity))) := by
  induction cs with
  | nil => intro l _ _; rfl
  | cons c rest ih =>
    intro l hsort hlen
    rcases List.pairwise_cons.mp hsort with ⟨hhead, htail⟩
    have step : spliceAllDesc (c :: rest) l =
        spliceAllDesc rest (insertAt l c.position (insertTextOf c.integrity)) := rfl
    rw [step, ih _ htail (fun c2 hc2 => le_trans (hlen c2 (by simp [hc2]))
      (length_insertAt_ge l _ c.position))]
    have hview : (c :: rest).reverse.map
        (fun c => (c.position, insertTextOf c.integrity)) =
        rest.reverse.map (fun c => (c.position, insertTextOf c.integrity)) ++
          [(c.position, insertTextOf c.integrity)] := by
      simp
    rw [hview]
    unfold interleave
    have hsorted : (rest.reverse.map
        (fun c => (c.position, insertTextOf c.integrity))).Pairwise
        (fun a b => a.1 ≤ b.1) := by
      rw [List.pairwise_map, List.pairwise_reverse]
      exact htail.imp (fun h => le_of_lt h)
    have hall : ∀ q ∈ rest.reverse.map
        (fun c => (c.position, insertTextOf c.integrity)),
        0 ≤ q.1 ∧ q.1 ≤ c.position := by
      intro q hq
      rw [List.mem_map] at hq
      rcases hq with ⟨c2, hc2, rfl⟩
      rw [List.mem_reverse] at hc2
      exact ⟨Nat.zero_le _, le_of_lt (hhead c2 hc2)⟩
    have := interleaveGo_snoc
      (rest.reverse.map (fun c => (c.position, insertTextOf c.integrity)))
      0 c.position l (insertTextOf c.integrity) hsorted hall (Nat.zero_le _)
      (by rw [Nat.sub_zero]; exact hlen c (by simp))
    rw [this, Nat.sub_zero]

/-- A non-`http`-prefixed URL is never from a bypass domain. -/
theorem bypass_false_of_not_http (url : String) (bd : List String)
    (h : strStartsWith url "http" = false) :
    isUrlFromBypassDomainS url bd = (false, []) := by
  unfold isUrlFromBypassDomainS isUrlFromBypassDomain
  simp [h]

/-! ## Claims -/

/-- C1 (amended): for every bundle-internal URL that resolves (directly or
via the fuzzy suffix rule) to a bundle entry whose content is not the empty
string, the digest string returned by `calculateIntegrity` equals the
configured algorithm name, then `-`, then the base64 encoding of that
algorithm's digest of the entry's exact content (chunk code or asset
source, string or bytes); entries whose digests differ receive different
digest strings. -/
theorem calculateIntegrity_digest_correct
    (bundle : Bundle) (htmlPath url : String) (opts : SriOptions)
    (cfg : BuildConfig) (cache : CacheState) (env : NetEnv) (hp : HashPrim)
    (f : List Nat → List Nat) (item : BundleItem)
    (hf : hp opts.hashAlgorithm = some f)
    (hurl : strStartsWith url "http" = false)
    (hres : resolveBundleSource bundle (getBundleKeyA htmlPath url cfg) =
      some item)
    (hne : item.content.falsy = false) :
    (calculateIntegrity bundle htmlPath url opts cfg cache env hp).1 =
      .ok (some (opts.hashAlgorithm ++ "-" ++
        String.mk (base64Encode (f item.content.toBytes)))) ∧
    (∀ b1 b2 : List Nat, (∀ x ∈ f b1, x < 256) → (∀ x ∈ f b2, x < 256) →
      f b1 ≠ f b2 →
      opts.hashAlgorithm ++ "-" ++ String.mk (base64Encode (f b1)) ≠
        opts.hashAlgorithm ++ "-" ++ String.mk (base64Encode (f b2))) := by
  constructor
  · unfold calculateIntegrity
    rw [bypass_false_of_not_http url _ hurl]
    simp only [hurl, hres, hne, digestExpr, hf, Bool.false_eq_true, if_false,
      Option.map_some]
    rfl
  · intro b1 b2 hb1 hb2 hnee heq
    apply hnee
    have hdata := congrArg String.data heq
    rw [String.data_append, String.data_append, String.data_append,
      String.data_append] at hdata
    have hlists := List.append_cancel_left hdata
    exact base64Encode_injective _ _ hb1 hb2 hlists

/-- C2 (amended): the batch-apply step sorts all pending insertions by
offset descending and splices them back-to-front, so whenever the
insertions' offsets are pairwise more than 100 characters apart and no
tag's 100-character window already shows its integrity value, every
insertion lands at its correct individual position in original-document
coordinates (immediately before the closing `>` its offset points at),
unshifted by the other insertions; and the result is independent of the
order in which the matches were collected.  A tag whose window already
contains an identical integrity value (for example an identical tag with
the same digest within 100 characters) is skipped by the dedup check
instead. -/
theorem applyIntegrityChanges_offsets_correct (html : List Char)
    (changes : List Change)
    (hgap : changes.Pairwise (fun a b =>
      a.position + 100 < b.position ∨ b.position + 100 < a.position))
    (hlen : ∀ c ∈ changes, c.position ≤ html.length)
    (hwin : ∀ c ∈ changes,
      hasExistingIntegrity html c.position c.integrity = false) :
    applyIntegrityChanges html changes =
      interleave html (ascChangeViews changes) ∧
    ∀ changes2 : List Change, changes2.Perm changes →
      applyIntegrityChanges html changes2 =
        applyIntegrityChanges html changes := by
  have hsymm : ∀ {x y : Change},
      (x.position + 100 < y.position ∨ y.position + 100 < x.position) →
      (y.position + 100 < x.position ∨ x.position + 100 < y.position) :=
    fun h => h.symm
  have hperm : (sortByKeyDesc (fun c => c.position) changes).Perm changes :=
    sortByKeyDesc_perm _ _
  have hsorted := sortByKeyDesc_sorted (fun c => c.position) changes
  have hgapS : (sortByKeyDesc (fun c => c.position) changes).Pairwise
      (fun a b => a.position + 100 < b.position ∨ b.position + 100 < a.position) :=
    (hperm.pairwise_iff hsymm).mpr hgap
  have hstrict : (sortByKeyDesc (fun c => c.position) changes).Pairwise
      (fun a b => b.position + 100 < a.position) :=
    (hsorted.and hgapS).imp (fun h => by omega)
  have hlenS : ∀ c ∈ sortByKeyDesc (fun c => c.position) changes,
      c.position ≤ html.length :=
    fun c hc => hlen c (hperm.mem_iff.mp hc)
  have hwinS : ∀ c ∈ sortByKeyDesc (fun c => c.position) changes,
      hasExistingIntegrity html c.position c.integrity = false :=
    fun c hc => hwin c (hperm.mem_iff.mp hc)
  constructor
  · have h1 : applyIntegrityChanges html changes =
        applyGo (sortByKeyDesc (fun c => c.position) changes) html := rfl
    rw [h1, applyGo_eq_spliceAll _ html hstrict hlenS hwinS,
      spliceAllDesc_eq_interleave _ html (hstrict.imp (fun h => by omega)) hlenS]
    rfl
  · intro changes2 hp2
    haveI : IsAntisymm Change (fun a b => b.position < a.position) :=
      ⟨fun a b h1 h2 => absurd (Nat.lt_trans h1 h2) (Nat.lt_irrefl _)⟩
    have hpermS : (sortByKeyDesc (fun c => c.position) changes2).Perm
        (sortByKeyDesc (fun c => c.position) changes) :=
      ((sortByKeyDesc_perm _ changes2).trans hp2).trans hperm.symm
    have hgap2 : changes2.Pairwise (fun a b =>
        a.position + 100 < b.position ∨ b.position + 100 < a.position) :=
      (hp2.pairwise_iff hsymm).mpr hgap
    have hstrict2 : (sortByKeyDesc (fun c => c.position) changes2).Pairwise
        (fun a b => b.position + 100 < a.position) :=
      ((sortByKeyDesc_sorted (fun c => c.position) changes2).and
        (((sortByKeyDesc_perm _ changes2).pairwise_iff hsymm).mpr hgap2)).imp
        (fun h => by omega)
    have hs2 : List.Sorted (fun a b => b.position < a.position)
        (sortByKeyDesc (fun c => c.position) changes2) :=
      hstrict2.imp (fun h => by omega)
    have hs1 : List.Sorted (fun a b => b.position < a.position)
        (sortByKeyDesc (fun c => c.position) changes) :=
      hstrict.imp (fun h => by omega)
    have heq : sortByKeyDesc (fun c => c.position) changes2 =
        sortByKeyDesc (fun c => c.position) changes :=
      List.eq_of_perm_of_sorted hpermS hs2 hs1
    show applyGo _ html = applyGo _ html
    rw [heq]

/-- C2 counterexample: a document with two identical adjacent script tags
(N = 2 qualifying tags, both resolving to the same sha256 digest).  The
batch-apply step inserts the attribute into the second tag, and the dedup
window check then finds that digest within 100 characters of the first
tag's offset and skips it: only one of the two tags receives an integrity
attribute, so not every qualifying tag is rewritten. -/
theorem applyIntegrityChanges_identical_tags_counterexample :
    (transformHTML bundleA "index.html"
      "<script src=\"a.js\"></script><script src=\"a.js\"></script>"
      optsIgnore256 cfgSlash emptyCache noNet hpTest).1 =
      .ok ("<script src=\"a.js\"></script><script src=\"a.js\" integrity=\"sha256-AQIDBAUGBwgJCgsMDQ4PEBESExQVFhcYGRobHB0eHyA=\"></script>") ∧
    ("<script src=\"a.js\"></script><script src=\"a.js\" integrity=\"sha256-AQIDBAUGBwgJCgsMDQ4PEBESExQVFhcYGRobHB0eHyA=\"></script>" : String) ≠
      "<script src=\"a.js\" integrity=\"sha256-AQIDBAUGBwgJCgsMDQ4PEBESExQVFhcYGRobHB0eHyA=\"></script><script src=\"a.js\" integrity=\"sha256-AQIDBAUGBwgJCgsMDQ4PEBESExQVFhcYGRobHB0eHyA=\"></script>" := by
  constructor
  · decide
  · decide

/-- C2 witness: two insertions 140 characters apart in a 200-character
document land exactly at their own offsets, independent of collection
order. -/
theorem applyIntegrityChanges_offsets_correct_witness :
    applyIntegrityChanges (List.replicate 200 'a')
      [Change.mk "d1" 10 "u1", Change.mk "d2" 150 "u2"] =
      interleave (List.replicate 200 'a')
        (ascChangeViews [Change.mk "d1" 10 "u1", Change.mk "d2" 150 "u2"]) :=
  (applyIntegrityChanges_offsets_correct (List.replicate 200 'a')
    [Change.mk "d1" 10 "u1", Change.mk "d2" 150 "u2"]
    (by decide) (by decide) (by decide)).1

/-- The splice loop leaves the document untouched when every pending
change's window already shows its integrity value. -/
theorem applyGo_all_skipped (cs : List Change) (l : List Char)
    (h : ∀ c ∈ cs, hasExistingIntegrity l c.position c.integrity = true) :
    applyGo cs l = l := by
  induction cs with
  | nil => rfl
  | cons c rest ih =>
    simp only [applyGo, h c (by simp), if_true]
    exact ih (fun c2 hc2 => h c2 (by simp [hc2]))

/-- C3 (amended): no change is applied to a tag whose 100-character window
around the insertion offset already carries an `integrity` attribute with
that same digest value, so re-applying the transform appends nothing as
long as every re-collected change's digest attribute still fits inside the
window — which holds for digest values up to 100 characters (sha256,
sha384), as the concrete sha384 double transform shows; for longer digest
values the window check can miss the existing attribute (see the
counterexample). -/
theorem transform_second_pass_skips :
    (∀ (html : List Char) (changes : List Change),
      (∀ c ∈ changes,
        hasExistingIntegrity html c.position c.integrity = true) →
      applyIntegrityChanges html changes = html) ∧
    (transformHTML bundleApp "index.html" "<script src=\"app.js\"></script>"
      optsIgnore384 cfgSlash emptyCache noNet hpTest).1 =
      .ok "<script src=\"app.js\" integrity=\"sha384-ExQVFhcYGRobHB0eHyAhIiMkJSYnKCkqKywtLi8wMTIzNDU2Nzg5Ojs8PT4/QEFC\"></script>" ∧
    (transformHTML bundleApp "index.html"
      "<script src=\"app.js\" integrity=\"sha384-ExQVFhcYGRobHB0eHyAhIiMkJSYnKCkqKywtLi8wMTIzNDU2Nzg5Ojs8PT4/QEFC\"></script>"
      optsIgnore384 cfgSlash emptyCache noNet hpTest).1 =
      .ok "<script src=\"app.js\" integrity=\"sha384-ExQVFhcYGRobHB0eHyAhIiMkJSYnKCkqKywtLi8wMTIzNDU2Nzg5Ojs8PT4/QEFC\"></script>" := by
  refine ⟨?_, by decide, by decide⟩
  intro html changes h
  have hperm : (sortByKeyDesc (fun c => c.position) changes).Perm changes :=
    sortByKeyDesc_perm _ _
  exact applyGo_all_skipped _ html (fun c hc => h c (hperm.mem_iff.mp hc))

/-- C3 counterexample: with `sha512` the needle `integrity="<digest>"` is
107 characters long, so on the second pass the 100-character window misses
the attribute inserted by the first pass and a duplicate `integrity`
attribute is appended — re-transforming the transform's own output (same
bundle, same options) is not the identity. -/
theorem transform_not_idempotent_sha512_counterexample :
    (transformHTML bundleApp "index.html" "<script src=\"app.js\"></script>"
      optsIgnore512 cfgSlash emptyCache noNet hpTest).1 =
      .ok "<script src=\"app.js\" integrity=\"sha512-ExQVFhcYGRobHB0eHyAhIiMkJSYnKCkqKywtLi8wMTIzNDU2Nzg5Ojs8PT4/QEFCQ0RFRkdISUpLTE1OT1BRUg==\"></script>" ∧
    (transformHTML bundleApp "index.html"
      "<script src=\"app.js\" integrity=\"sha512-ExQVFhcYGRobHB0eHyAhIiMkJSYnKCkqKywtLi8wMTIzNDU2Nzg5Ojs8PT4/QEFCQ0RFRkdISUpLTE1OT1BRUg==\"></script>"
      optsIgnore512 cfgSlash emptyCache noNet hpTest).1 =
      .ok "<script src=\"app.js\" integrity=\"sha512-ExQVFhcYGRobHB0eHyAhIiMkJSYnKCkqKywtLi8wMTIzNDU2Nzg5Ojs8PT4/QEFCQ0RFRkdISUpLTE1OT1BRUg==\" integrity=\"sha512-ExQVFhcYGRobHB0eHyAhIiMkJSYnKCkqKywtLi8wMTIzNDU2Nzg5Ojs8PT4/QEFCQ0RFRkdISUpLTE1OT1BRUg==\"></script>" ∧
    ("<script src=\"app.js\" integrity=\"sha512-ExQVFhcYGRobHB0eHyAhIiMkJSYnKCkqKywtLi8wMTIzNDU2Nzg5Ojs8PT4/QEFCQ0RFRkdISUpLTE1OT1BRUg==\" integrity=\"sha512-ExQVFhcYGRobHB0eHyAhIiMkJSYnKCkqKywtLi8wMTIzNDU2Nzg5Ojs8PT4/QEFCQ0RFRkdISUpLTE1OT1BRUg==\"></script>" : String) ≠
      "<script src=\"app.js\" integrity=\"sha512-ExQVFhcYGRobHB0eHyAhIiMkJSYnKCkqKywtLi8wMTIzNDU2Nzg5Ojs8PT4/QEFCQ0RFRkdISUpLTE1OT1BRUg==\"></script>" := by
  refine ⟨by decide, by decide, by decide⟩

/-- C3 witness: a change whose digest already sits in the window around its
offset is skipped, leaving the document identical. -/
theorem transform_second_pass_skips_witness :
    applyIntegrityChanges
      "<script src=\"x.js\" integrity=\"d7\"></script>".toList
      [Change.mk "d7" 34 "x.js"] =
      "<script src=\"x.js\" integrity=\"d7\"></script>".toList :=
  (transform_second_pass_skips).1
    "<script src=\"x.js\" integrity=\"d7\"></script>".toList
    [Change.mk "d7" 34 "x.js"] (by decide)

/-- C4 (amended): whenever the `writeBundle` transform injects an integrity
attribute into a tag — the tag carries no `integrity=`, its URL resolves in
the bundle, and the digest succeeds — the new tag is the old tag with
`integrity="<algo>-<base64digest>"` and, if the tag does not already have
one, a `crossorigin` attribute appended just before the closing `>`.  But
the `async writeBundle(options, bundle)` hook parameter shadows the
plugin's configured options with the host's output options, on which every
plugin field is `undefined`: the algorithm always falls back to
`computeSri`'s parameter default `sha384`, and the appended attribute is
the interpolation `` crossorigin="${undefined}" `` — the literal text
`crossorigin="undefined"`, never the configured value and never
`anonymous`.  In the concrete scenario `<script src="app.js"></script>`
with the `app.js` chunk, a real run emits
`integrity="sha384-…" crossorigin="undefined"`.  (The html-parser pipeline
appends only the integrity attribute.) -/
theorem writeBundle_appends_integrity_and_crossorigin :
    (∀ (tag url : String) (opts : OutputOptions) (bundle : Bundle)
      (base : String) (env : NetEnv) (hp : HashPrim)
      (sc : List (String × String)) (f : List Nat → List Nat)
      (item : BundleItem),
      containsSub tag.toList "integrity=".toList = false →
      isExternalUrl url = false →
      findFirstKey bundle (getBundleKeyB url base) = some item →
      hp (opts.algorithm.getD "sha384") = some f →
      item.content ≠ .undef →
      strEndsWith tag ">" = true →
      (processResourceB tag url opts bundle base env hp sc).1 =
        some (tag, strDropRight tag 1 ++ " integrity=\"" ++
          (opts.algorithm.getD "sha384" ++ "-" ++
            String.mk (base64Encode (f item.content.toBytes))) ++ "\"" ++
          (if hasCrossOriginAttr tag then ""
            else " crossorigin=\"" ++ jsInterp opts.crossorigin ++ "\"") ++
          ">")) ∧
    jsInterp rollupOutputOptions.crossorigin = "undefined" ∧
    (writeBundleHtml "<script src=\"app.js\"></script>" bundleApp
      rollupOutputOptions "" noNet hpTest).1 =
      "<script src=\"app.js\" integrity=\"sha384-ExQVFhcYGRobHB0eHyAhIiMkJSYnKCkqKywtLi8wMTIzNDU2Nzg5Ojs8PT4/QEFC\" crossorigin=\"undefined\"></script>" := by
  refine ⟨?_, rfl, by decide⟩
  intro tag url opts bundle base env hp sc f item hint hext hres hf hcontent htag
  unfold processResourceB
  simp only [hint, hext, hres, Bool.false_eq_true, if_false]
  unfold computeSri
  rw [hf]
  unfold withSriAttrs
  cases hc : item.content with
  | undef => exact absurd hc hcontent
  | str s => simp [htag]
  | bytes b => simp [htag]

/-- C4 counterexample: a real `writeBundle` run — the hook receives
Rollup's output options, which shadow the configured plugin options — on
the claim's concrete scenario appends `crossorigin="undefined"`, not
`crossorigin="anonymous"`; and the html-parser pipeline's batch apply on
the same input appends no `crossorigin` attribute at all, only
`integrity` — so the claim's two-attribute/configured-value statement
fails in both pipelines. -/
theorem writeBundle_crossorigin_undefined_counterexample :
    (writeBundleHtml "<script src=\"app.js\"></script>" bundleApp
      rollupOutputOptions "" noNet hpTest).1 =
      "<script src=\"app.js\" integrity=\"sha384-ExQVFhcYGRobHB0eHyAhIiMkJSYnKCkqKywtLi8wMTIzNDU2Nzg5Ojs8PT4/QEFC\" crossorigin=\"undefined\"></script>" ∧
    ("<script src=\"app.js\" integrity=\"sha384-ExQVFhcYGRobHB0eHyAhIiMkJSYnKCkqKywtLi8wMTIzNDU2Nzg5Ojs8PT4/QEFC\" crossorigin=\"undefined\"></script>" : String) ≠
      "<script src=\"app.js\" integrity=\"sha384-ExQVFhcYGRobHB0eHyAhIiMkJSYnKCkqKywtLi8wMTIzNDU2Nzg5Ojs8PT4/QEFC\" crossorigin=\"anonymous\"></script>" ∧
    (transformHTML bundleApp "index.html" "<script src=\"app.js\"></script>"
      optsIgnore384 cfgSlash emptyCache noNet hpTest).1 =
      .ok "<script src=\"app.js\" integrity=\"sha384-ExQVFhcYGRobHB0eHyAhIiMkJSYnKCkqKywtLi8wMTIzNDU2Nzg5Ojs8PT4/QEFC\"></script>" ∧
    containsSub
      "<script src=\"app.js\" integrity=\"sha384-ExQVFhcYGRobHB0eHyAhIiMkJSYnKCkqKywtLi8wMTIzNDU2Nzg5Ojs8PT4/QEFC\"></script>".toList
      "crossorigin".toList = false := by
  refine ⟨by decide, by decide, by decide, by decide⟩

/-- C4 witness: the general attribute-appending theorem evaluated on the
concrete scenario tag with the hook options a real run supplies (Rollup's
output options). -/
theorem writeBundle_appends_attrs_witness :
    (processResourceB "<script src=\"app.js\">" "app.js" rollupOutputOptions
      bundleApp "" noNet hpTest []).1 =
      some ("<script src=\"app.js\">",
        "<script src=\"app.js\" integrity=\"sha384-ExQVFhcYGRobHB0eHyAhIiMkJSYnKCkqKywtLi8wMTIzNDU2Nzg5Ojs8PT4/QEFC\" crossorigin=\"undefined\">") := by
  have h := writeBundle_appends_integrity_and_crossorigin.1
    "<script src=\"app.js\">" "app.js" rollupOutputOptions bundleApp ""
    noNet hpTest []
    (fun b => (List.range 48).map (fun i => (i + b.length) % 256))
    (chunkItem "console.log(\"test\")")
    (by decide) (by decide) (by decide) rfl (by decide) (by decide)
  rw [h]
  decide

/-- C5: when a URL has no matching bundle entry (neither directly nor by
the fuzzy key rule), `calculateIntegrity` with `ignoreMissingAsset` returns
the skip sentinel `null` after logging a warning (and the tag is left
unchanged because no change is recorded); with `ignoreMissingAsset` off it
throws a `not found in bundle` error, which propagates out of the
document's `transformHTML` instead of being swallowed — as the concrete
`missing.js` scenarios show. -/
theorem calculateIntegrity_missing_asset :
    (∀ (bundle : Bundle) (htmlPath url : String) (opts : SriOptions)
      (cfg : BuildConfig) (cache : CacheState) (env : NetEnv) (hp : HashPrim),
      strStartsWith url "http" = false →
      resolveBundleSource bundle (getBundleKeyA htmlPath url cfg) = none →
      (opts.ignoreMissingAsset = true →
        (calculateIntegrity bundle htmlPath url opts cfg cache env hp).1 =
          .ok none ∧
        (calculateIntegrity bundle htmlPath url opts cfg cache env hp).2.2.2 =
          [warnLog ("Asset not found in bundle: " ++ url ++ " (path: " ++
            htmlPath ++ ", key: " ++ getBundleKeyA htmlPath url cfg ++ ")")]) ∧
      (opts.ignoreMissingAsset = false →
        (calculateIntegrity bundle htmlPath url opts cfg cache env hp).1 =
          .error ("Asset " ++ url ++ " not found in bundle (path: " ++
            htmlPath ++ ", key: " ++ getBundleKeyA htmlPath url cfg ++ ")"))) ∧
    (transformHTML [] "index.html" "<script src=\"missing.js\"></script>"
      optsFail384 cfgSlash emptyCache noNet hpTest).1 =
      .error "Asset missing.js not found in bundle (path: index.html, key: missing.js)" ∧
    (transformHTML [] "index.html" "<script src=\"missing.js\"></script>"
      optsIgnore384 cfgSlash emptyCache noNet hpTest).1 =
      .ok "<script src=\"missing.js\"></script>" ∧
    (transformHTML [] "index.html" "<script src=\"missing.js\"></script>"
      optsIgnore384 cfgSlash emptyCache noNet hpTest).2.2.2 =
      [warnLog "Asset not found in bundle: missing.js (path: index.html, key: missing.js)"] := by
  refine ⟨?_, by decide, by decide, by decide⟩
  intro bundle htmlPath url opts cfg cache env hp hurl hres
  constructor
  · intro hign
    unfold calculateIntegrity
    rw [bypass_false_of_not_http url _ hurl]
    simp only [hurl, hres, hign, Bool.false_eq_true, if_false, if_true]
    constructor <;> simp
  · intro hign
    unfold calculateIntegrity
    rw [bypass_false_of_not_http url _ hurl]
    simp only [hurl, hres, hign, Bool.false_eq_true, if_false]

/-- C5 witness: the missing-asset scenario with `ignoreMissingAsset` on
yields the skip sentinel. -/
theorem calculateIntegrity_missing_asset_witness :
    (calculateIntegrity [] "index.html" "missing.js" optsIgnore384 cfgSlash
      emptyCache noNet hpTest).1 = .ok none :=
  (((calculateIntegrity_missing_asset).1 [] "index.html" "missing.js"
    optsIgnore384 cfgSlash emptyCache noNet hpTest (by decide)
    (by decide)).1 rfl).1

theorem mapGet_mapSet_self (m : List (String × α)) (k : String) (v : α) :
    mapGet (mapSet m k v) k = some v := by
  unfold mapGet mapSet
  simp [List.find?]

theorem headLoop_all_netError (env : NetEnv) (url : String)
    (h : ∀ i, env.headAt url i = .netError) :
    ∀ idxs : List Nat,
      headLoop env url idxs = (none, idxs.map (fun _ => NetCall.head url), []) := by
  intro idxs
  induction idxs with
  | nil => rfl
  | cons i rest ih =>
    unfold headLoop
    rw [h i, ih]
    rfl

/-- C6 (amended): the CORS capability check `checkResourceSupport` returns
true iff the HEAD request completes with a 2xx-class response and an
`Access-Control-Allow-Origin` header equal to `*` or containing `*` (the
configured origin/domain is never consulted by this check); any network
error, timeout, or non-matching header yields false; the verdict —
including a negative one — is cached per URL for the build and a cached
verdict issues no request; and for an external URL `calculateIntegrity`
proceeds past the check only when it returns true, otherwise the tag is
left unmodified with no error and no GET is issued. -/
theorem checkResourceSupport_cors_gating :
    (∀ (cache : CacheState) (url : String) (env : NetEnv) (r : Nat)
      (ok : Bool) (acao : Option String),
      mapGet cache.urlSupport url = none →
      env.headAt url 0 = .resp ok acao →
      (checkResourceSupport cache url env r).1 = (ok && acaoStar acao) ∧
      mapGet (checkResourceSupport cache url env r).2.1.urlSupport url =
        some (ok && acaoStar acao) ∧
      (checkResourceSupport cache url env r).2.2.1 = [.head url]) ∧
    (∀ (cache : CacheState) (url : String) (env : NetEnv) (r : Nat)
      (v : Bool), mapGet cache.urlSupport url = some v →
      checkResourceSupport cache url env r = (v, cache, [], [])) ∧
    (∀ (cache : CacheState) (url : String) (env : NetEnv) (r : Nat),
      mapGet cache.urlSupport url = none →
      (∀ i, env.headAt url i = .netError) →
      (checkResourceSupport cache url env r).1 = false ∧
      mapGet (checkResourceSupport cache url env r).2.1.urlSupport url =
        some false) ∧
    (∀ (cache : CacheState) (url : String) (env : NetEnv) (r : Nat),
      mapGet cache.urlSupport url = none →
      env.headAt url 0 = .timeout →
      (checkResourceSupport cache url env r).1 = false) ∧
    (∀ (bundle : Bundle) (htmlPath url : String) (opts : SriOptions)
      (cfg : BuildConfig) (cache : CacheState) (env : NetEnv) (hp : HashPrim),
      strStartsWith url "http" = true →
      (isUrlFromBypassDomainS url opts.bypassDomains).1 = false →
      (checkResourceSupport cache url env 2).1 = false →
      (calculateIntegrity bundle htmlPath url opts cfg cache env hp).1 =
        .ok none ∧
      (calculateIntegrity bundle htmlPath url opts cfg cache env hp).2.2.1 =
        (checkResourceSupport cache url env 2).2.2.1) := by
  refine ⟨?_, ?_, ?_, ?_, ?_⟩
  · intro cache url env r ok acao hcache hhead
    unfold checkResourceSupport
    rw [hcache, List.range_succ_eq_map]
    unfold headLoop
    rw [hhead]
    exact ⟨rfl, mapGet_mapSet_self _ _ _, rfl⟩
  · intro cache url env r v hcache
    unfold checkResourceSupport
    rw [hcache]
  · intro cache url env r hcache hnet
    unfold checkResourceSupport
    rw [hcache, headLoop_all_netError env url hnet]
    exact ⟨rfl, mapGet_mapSet_self _ _ _⟩
  · intro cache url env r hcache htime
    unfold checkResourceSupport
    rw [hcache, List.range_succ_eq_map]
    unfold headLoop
    rw [htime]
  · intro bundle htmlPath url opts cfg cache env hp hurl hbp hsup
    unfold calculateIntegrity
    rcases hck : checkResourceSupport cache url env 2 with ⟨sup, c1, cs1, ls1⟩
    rw [hck] at hsup
    simp only at hsup
    subst hsup
    simp only [hbp, hurl, hck, Bool.false_eq_true, if_false, if_true,
      Bool.not_false]
    constructor <;> simp

/-- C6 counterexample: a 2xx HEAD response whose
`Access-Control-Allow-Origin` header contains the configured domain
`example.com` (but not `*`) — the claim requires the check to return true,
but `checkResourceSupport` only looks for `*` and returns false. -/
theorem checkResourceSupport_domain_header_counterexample :
    (checkResourceSupport emptyCache "https://cdn.example.com/lib.js"
      corsDomainEnv 2).1 = false ∧
    corsDomainEnv.headAt "https://cdn.example.com/lib.js" 0 =
      .resp true (some "https://app.example.com") ∧
    containsSub "https://app.example.com".toList "example.com".toList =
      true := by
  refine ⟨by decide, rfl, by decide⟩

/-- C6 witness: a wildcard header on the first attempt yields the verdict
`ok && acaoStar acao` = true. -/
theorem checkResourceSupport_cors_gating_witness :
    (checkResourceSupport emptyCache "https://x.com/a.js" corsStarEnv 2).1 =
      (true && acaoStar (some "*")) :=
  (checkResourceSupport_cors_gating.1 emptyCache "https://x.com/a.js"
    corsStarEnv 2 true (some "*") rfl rfl).1

/-- For an absolute `http`-prefixed URL whose parsed hostname matches a
bypass domain, `calculateIntegrity` returns the skip sentinel immediately:
no cache change, no network call, no log. -/
theorem calculateIntegrity_bypass_helper (bundle : Bundle)
    (htmlPath url : String) (opts : SriOptions) (cfg : BuildConfig)
    (cache : CacheState) (env : NetEnv) (hp : HashPrim) (h : String)
    (hurl : strStartsWith url "http" = true)
    (hhost : urlHostname url = some h)
    (hany : opts.bypassDomains.any
      (fun d => h = d || strEndsWith h ("." ++ d)) = true) :
    calculateIntegrity bundle htmlPath url opts cfg cache env hp =
      (.ok none, cache, [], []) := by
  have hne : url ≠ "" := by
    intro he
    rw [he] at hurl
    exact absurd hurl (by decide)
  have hbp : isUrlFromBypassDomainS url opts.bypassDomains = (true, []) := by
    unfold isUrlFromBypassDomainS isUrlFromBypassDomain
    simp [hne, hurl, hhost, hany]
  unfold calculateIntegrity
  rw [hbp]
  rfl

/-- C7 (amended): for every URL that starts with `http` and whose parsed
hostname equals or is a subdomain of a configured bypass domain, resolution
is skipped before any network call — no HEAD or GET request is issued, the
caches and logs are untouched, and `calculateIntegrity` returns the skip
sentinel, so `processMatch` records no change and the tag keeps no
integrity attribute.  (Protocol-relative `//…` references bypass this check
and can still gain an integrity attribute through the fuzzy bundle lookup —
see the counterexample.) -/
theorem bypass_domain_skips_before_network :
    (∀ (bundle : Bundle) (htmlPath url : String) (opts : SriOptions)
      (cfg : BuildConfig) (cache : CacheState) (env : NetEnv) (hp : HashPrim)
      (h : String),
      strStartsWith url "http" = true →
      urlHostname url = some h →
      opts.bypassDomains.any (fun d => h = d || strEndsWith h ("." ++ d)) =
        true →
      calculateIntegrity bundle htmlPath url opts cfg cache env hp =
        (.ok none, cache, [], [])) ∧
    (∀ (m : MatchRes) (endOff : Nat) (bundle : Bundle) (htmlPath : String)
      (opts : SriOptions) (cfg : BuildConfig) (cache : CacheState)
      (env : NetEnv) (hp : HashPrim) (ul : List Char) (h : String),
      capGet m.caps 1 = some ul → ul ≠ [] →
      strStartsWith (String.mk ul) "http" = true →
      urlHostname (String.mk ul) = some h →
      opts.bypassDomains.any (fun d => h = d || strEndsWith h ("." ++ d)) =
        true →
      (processMatch m endOff bundle htmlPath opts cfg cache env hp).1 =
        .ok none) := by
  refine ⟨calculateIntegrity_bypass_helper, ?_⟩
  intro m endOff bundle htmlPath opts cfg cache env hp ul h hcap hne hurl
    hhost hany
  unfold processMatch
  rw [hcap]
  have hemp : ul.isEmpty = false := by
    cases ul with
    | nil => exact absurd rfl hne
    | cons a t => rfl
  simp only [hemp, Bool.false_eq_true, if_false,
    calculateIntegrity_bypass_helper bundle htmlPath (String.mk ul) opts cfg
      cache env hp h hurl hhost hany]

/-- C7 counterexample: `//cdn.example.com/lib.js` has hostname
`cdn.example.com` (the repository's own hostname extraction says so), which
is a configured bypass domain — yet the transform adds an integrity
attribute to its tag: the protocol-relative URL skips
`isUrlFromBypassDomain` (not `http`-prefixed), falls into the bundle
branch, and the fuzzy key rule matches the `lib.js` bundle entry. -/
theorem bypass_domain_counterexample :
    extractHostname "//cdn.example.com/lib.js" = "cdn.example.com" ∧
    optsBypassCdn.bypassDomains = ["cdn.example.com"] ∧
    (transformHTML bundleLib "index.html"
      "<script src=\"//cdn.example.com/lib.js\"></script>" optsBypassCdn
      cfgSlash emptyCache noNet hpTest).1 =
      .ok "<script src=\"//cdn.example.com/lib.js\" integrity=\"sha384-AQIDBAUGBwgJCgsMDQ4PEBESExQVFhcYGRobHB0eHyAhIiMkJSYnKCkqKywtLi8w\"></script>" ∧
    ("<script src=\"//cdn.example.com/lib.js\" integrity=\"sha384-AQIDBAUGBwgJCgsMDQ4PEBESExQVFhcYGRobHB0eHyAhIiMkJSYnKCkqKywtLi8w\"></script>" : String) ≠
      "<script src=\"//cdn.example.com/lib.js\"></script>" := by
  refine ⟨by decide, rfl, by decide, by decide⟩

/-- C7 witness: an absolute URL on the bypass CDN is skipped with no
network call. -/
theorem bypass_domain_skips_witness :
    calculateIntegrity bundleLib "index.html" "http://cdn.example.com/lib.js"
      optsBypassCdn cfgSlash emptyCache noNet hpTest =
      (.ok none, emptyCache, [], []) :=
  bypass_domain_skips_before_network.1 bundleLib "index.html"
    "http://cdn.example.com/lib.js" optsBypassCdn cfgSlash emptyCache noNet
    hpTest "cdn.example.com" (by decide) (by decide) (by decide)

/-- C8 (amended): in the `computeSri` pipeline an unsupported or invalid
algorithm name makes the digest primitive raise; `computeSri` catches it,
logs at error level, and returns `null`, and the per-resource update step
of `writeBundle` then leaves the tag untouched — whatever algorithm its
(output-options) algorithm property resolves to, a raising digest
primitive never aborts the document, as the concrete `writeBundle` run on
a platform whose `createHash` rejects shows.  (In the `network-utils`
pipeline's `calculateIntegrity` the same raise is not caught — see the
counterexample.) -/
theorem computeSri_catches_digest_error :
    (∀ (hp : HashPrim) (alg : String) (content : JsContent),
      hp alg = none →
      computeSri hp content alg =
        (none, [errorLog
          ("Failed to compute SRI hash: Digest method not supported: " ++
            alg)])) ∧
    (∀ (tag url : String) (opts : OutputOptions) (bundle : Bundle)
      (base : String) (env : NetEnv) (hp : HashPrim)
      (sc : List (String × String)),
      containsSub tag.toList "integrity=".toList = false →
      isExternalUrl url = false →
      hp (opts.algorithm.getD "sha384") = none →
      (processResourceB tag url opts bundle base env hp sc).1 = none) ∧
    (writeBundleHtml "<script src=\"app.js\"></script>" bundleApp
      rollupOutputOptions "" noNet (fun _ => none)).1 =
      "<script src=\"app.js\"></script>" := by
  refine ⟨?_, ?_, by decide⟩
  · intro hp alg content hf
    unfold computeSri
    rw [hf]
  · intro tag url opts bundle base env hp sc hint hext hf
    unfold processResourceB
    simp only [hint, hext, Bool.false_eq_true, if_false]
    cases hfk : findFirstKey bundle (getBundleKeyB url base) with
    | none => rfl
    | some item =>
      unfold computeSri
      rw [hf]

/-- C8 counterexample: the integrity-calculation layer of the
`network-utils` pipeline does not catch the digest primitive's error — for
a tag resolving to a bundle entry under an unsupported algorithm name,
`calculateIntegrity` propagates the raise as an error (aborting the
document transform) instead of logging and returning `null`. -/
theorem calculateIntegrity_digest_error_counterexample :
    (calculateIntegrity bundleApp "index.html" "app.js"
      { ignoreMissingAsset := true, bypassDomains := [],
        hashAlgorithm := "md5-x" } cfgSlash emptyCache noNet hpTest).1 =
      .error "Digest method not supported: md5-x" ∧
    (Except.error "Digest method not supported: md5-x" :
      Except String (Option String)) ≠ .ok none := by
  refine ⟨by decide, by decide⟩

/-- C8 witness: `computeSri` on a concrete unsupported algorithm returns
`null` with an error-level log. -/
theorem computeSri_catches_digest_error_witness :
    computeSri hpTest (.str "x") "md5-x" =
      (none, [errorLog
        "Failed to compute SRI hash: Digest method not supported: md5-x"]) :=
  computeSri_catches_digest_error.1 hpTest "md5-x" (.str "x") rfl

/-- C9 (amended): query strings and fragments are never stripped before the
bundle lookup — with the standard `/` base the lookup key is the URL
itself, query intact — and a query-carrying URL for which neither the exact
key nor the fuzzy suffix rule (bundle key ends with the lookup key, or the
lookup key ends with the bundle key) finds an entry is NOT_FOUND: with
`ignoreMissingAsset` the document comes back as the original unmodified
string, as the concrete `app.js?v=123` scenario shows.  (Without the fuzzy
qualification the claim fails — see the counterexample.) -/
theorem query_url_not_stripped_not_found :
    (∀ (htmlPath url cwd : String),
      strStartsWith url "/" = false →
      getBundleKeyA htmlPath url { base := "/", cwd := cwd } = url) ∧
    (∀ (bundle : Bundle) (htmlPath url : String) (opts : SriOptions)
      (cfg : BuildConfig) (cache : CacheState) (env : NetEnv) (hp : HashPrim),
      containsSub url.toList "?".toList = true →
      strStartsWith url "http" = false →
      resolveBundleSource bundle (getBundleKeyA htmlPath url cfg) = none →
      opts.ignoreMissingAsset = true →
      (calculateIntegrity bundle htmlPath url opts cfg cache env hp).1 =
        .ok none) ∧
    (transformHTML bundleApp "index.html"
      "<script src=\"app.js?v=123\"></script>" optsIgnore384 cfgSlash
      emptyCache noNet hpTest).1 =
      .ok "<script src=\"app.js?v=123\"></script>" := by
  refine ⟨?_, ?_, by decide⟩
  · intro htmlPath url cwd h1
    unfold getBundleKeyA
    simp [h1]
  · intro bundle htmlPath url opts cfg cache env hp _ hurl hres hign
    unfold calculateIntegrity
    rw [bypass_false_of_not_http url _ hurl]
    simp only [hurl, hres, hign, Bool.false_eq_true, if_false, if_true]

/-- C9 counterexample: the URL `app.js?v=123` has no exact bundle key
match against the bundle `{ "123": chunk }`, yet resolution is not
NOT_FOUND: the fuzzy rule `bundleKey.endsWith(key)` matches the key `123`
and an integrity digest (of the wrong asset) is returned. -/
theorem query_url_fuzzy_match_counterexample :
    bundleGet bundle123 (getBundleKeyA "index.html" "app.js?v=123" cfgSlash) =
      none ∧
    containsSub "app.js?v=123".toList "?".toList = true ∧
    (calculateIntegrity bundle123 "index.html" "app.js?v=123" optsIgnore384
      cfgSlash emptyCache noNet hpTest).1 =
      .ok (some "sha384-AQIDBAUGBwgJCgsMDQ4PEBESExQVFhcYGRobHB0eHyAhIiMkJSYnKCkqKywtLi8w") ∧
    (Except.ok (some "sha384-AQIDBAUGBwgJCgsMDQ4PEBESExQVFhcYGRobHB0eHyAhIiMkJSYnKCkqKywtLi8w") :
      Except String (Option String)) ≠ .ok none := by
  refine ⟨by decide, by decide, by decide, by decide⟩

/-- C9 witness: a query-carrying URL with no exact and no fuzzy bundle
match yields the skip sentinel. -/
theorem query_url_not_found_witness :
    (calculateIntegrity bundleApp "index.html" "other.js?v=9" optsIgnore384
      cfgSlash emptyCache noNet hpTest).1 = .ok none :=
  query_url_not_stripped_not_found.2.1 bundleApp "index.html" "other.js?v=9"
    optsIgnore384 cfgSlash emptyCache noNet hpTest (by decide) (by decide)
    (by decide) rfl

/-- C10 (amended): for every input that is not a string, or is a string not
starting with `http` (including protocol-relative references such as
`//cdn.example.com/lib.js` and bundle-relative paths), the bypass-domain
predicate `isUrlFromBypassDomain` returns false regardless of the
configured bypass domains — so bypass-domain exclusion is only ever applied
to strings starting with `http`, which admits non-http(s) schemes such as
`httpx://` (see the counterexample), not only absolute http/https URLs. -/
theorem isUrlFromBypassDomain_guard :
    (∀ bd : List String, (isUrlFromBypassDomain .nonString bd).1 = false) ∧
    (∀ (s : String) (bd : List String),
      strStartsWith s "http" = false →
      (isUrlFromBypassDomain (.vstr s) bd).1 = false) ∧
    (isUrlFromBypassDomainS "//cdn.example.com/lib.js"
      ["cdn.example.com"]).1 = false := by
  refine ⟨fun bd => rfl, ?_, by decide⟩
  intro s bd h
  unfold isUrlFromBypassDomain
  simp [h]

/-- C10 counterexample: `httpx://cdn.example.com/a` is not an absolute
http/https URL, yet it starts with `http`, parses with hostname
`cdn.example.com`, and the bypass-domain predicate returns true for it —
bypass exclusion is not limited to absolute http/https URLs. -/
theorem isUrlFromBypassDomain_httpx_counterexample :
    (isUrlFromBypassDomainS "httpx://cdn.example.com/a"
      ["cdn.example.com"]).1 = true ∧
    strStartsWith "httpx://cdn.example.com/a" "http://" = false ∧
    strStartsWith "httpx://cdn.example.com/a" "https://" = false := by
  refine ⟨by decide, by decide, by decide⟩

/-- C10 witness: the protocol-relative reference of the claim is rejected
by the predicate for any configured bypass domains. -/
theorem isUrlFromBypassDomain_guard_witness :
    (isUrlFromBypassDomain (.vstr "//cdn.example.com/lib.js")
      ["cdn.example.com"]).1 = false :=
  isUrlFromBypassDomain_guard.2.1 "//cdn.example.com/lib.js"
    ["cdn.example.com"] (by decide)

/-- C1 counterexample: a bundle entry whose chunk code is the empty string
resolves, but `calculateIntegrity` returns `null` (the `!source` guard)
instead of the digest string of the empty content the claim promises. -/
theorem calculateIntegrity_empty_chunk_counterexample :
    (calculateIntegrity bundleEmptyChunk "index.html" "app.js" optsIgnore384
      cfgSlash emptyCache noNet hpTest).1 = .ok none ∧
    (Except.ok none : Except String (Option String)) ≠
      .ok (some ("sha384-" ++
        "AAECAwQFBgcICQoLDA0ODxAREhMUFRYXGBkaGxwdHh8gISIjJCUmJygpKissLS4v")) := by
  constructor
  · decide
  · decide

/-- C1 witness: the concrete scenario bundle entry `app.js` with chunk code
`console.log("test")` receives exactly the algorithm-prefixed base64 digest
of that string. -/
theorem calculateIntegrity_digest_correct_witness :
    (calculateIntegrity bundleApp "index.html" "app.js" optsIgnore384
      cfgSlash emptyCache noNet hpTest).1 =
      .ok (some ("sha384-" ++
        "ExQVFhcYGRobHB0eHyAhIiMkJSYnKCkqKywtLi8wMTIzNDU2Nzg5Ojs8PT4/QEFC")) := by
  have h := (calculateIntegrity_digest_correct bundleApp "index.html" "app.js"
    optsIgnore384 cfgSlash emptyCache noNet hpTest
    (fun b => (List.range 48).map (fun i => (i + b.length) % 256))
    (chunkItem "console.log(\"test\")") rfl (by decide) (by decide)
    (by decide)).1
  rw [h]
  decide

end Sri
